import Mathlib

/-!
Command-line parsing and orchestration of snapshotSnpcaller.

A shallow embedding of `src/snapshotSnpcaller.cpp`.

* C strings are Lean `String`s, a `char *` that may be `NULL` is an
  `Option String`, and `strlen` is the UTF-8 byte count.
* `args` is the list of the `argn` argument strings; the entry at index `argn`
  is the null pointer the C runtime puts there.
* Functions declared in the headers the file includes (`dirOfPrefixExists`,
  `ParseIniFile`, `loadIndex`, `selectPossibleSNPs`, ...) are not part of the
  file; they are fields of `Env`, and a call to one is an event of the trace.
-/

namespace SnapshotSnpcaller

/-! ## Data model -/

/-- The fields of `InputOptions` that `parseCommandlineArguments` assigns. -/
structure InputOptions where
  resultPrefix : Option String
  isExome : Bool
  exomeRegionFileName : Option String
  verbose : Bool
  deriving DecidableEq, Repr

/-- The variables `parseCommandlineArguments` writes: `indexPrefix` and `input_options`. -/
structure ParseState where
  indexPrefix : Option String
  input_options : InputOptions
  deriving DecidableEq, Repr

/-- What reading `args[i]` gives: a string for `i < argn`, the null pointer at
`i = argn`, and an access outside the argument vector beyond that. -/
inductive ArgRead where
  | str (s : String)
  | null
  | outOfBounds
  deriving DecidableEq, Repr

/-- Undefined behaviour the parser could run into. -/
inductive Fault where
  /-- An entry past `args[argn]` was read. -/
  | outOfBounds
  /-- A null pointer was handed to `strcmp`. -/
  | nullDeref
  deriving DecidableEq, Repr

/-- How a call of `parseCommandlineArguments` ends. -/
inductive ParseOutcome where
  /-- The call `exit(code)` after writing `err` to the error stream. -/
  | exit (code : Nat) (err : List String)
  /-- The function returns to its caller. -/
  | ret (st : ParseState)
  /-- Undefined behaviour was reached. -/
  | fault (why : Fault)
  /-- The loop model ran out of fuel. -/
  | outOfFuel
  deriving DecidableEq, Repr

/-- How the `for` loop over the arguments ends. -/
inductive LoopOutcome where
  | exit (code : Nat) (err : List String)
  | done (st : ParseState)
  | fault (why : Fault)
  | outOfFuel
  deriving DecidableEq, Repr

/-! ## printCommandUsage and parseCommandlineArguments -/

/-- What `fprintf` writes for `%s`: the string, and glibc's `(null)` for a null pointer. -/
def fmtS : Option String → String
  | some s => s
  | none => "(null)"

/-- The five `fprintf(stderr, ...)` calls of `printCommandUsage`, in order. -/
def printCommandUsage (programName : Option String) : List String :=
  [ "Usage:\n",
    fmtS programName ++ " -i <Reference Index Prefix> -o <Output Prefix> [-e regionListFile]\n",
    "    -o: Output Prefix\n",
    "    -e <Exome Region Index>: Exome Region Index generated by RegionIndexBuilder\n",
    "    -v: Be verbose\n" ]

/-- The read `args[i]`. -/
def readArg (args : List String) (i : Nat) : ArgRead :=
  if i < args.length then
    match args[i]? with
    | some s => .str s
    | none => .null
  else if i = args.length then .null
  else .outOfBounds

/-- The pointer stored by `x = args[++i]`. -/
def ArgRead.toPtr : ArgRead → Option String
  | .str s => some s
  | _ => none

/-- The assignments at the top of `parseCommandlineArguments` (lines 42-47). -/
def initState : ParseState :=
  { indexPrefix := none,
    input_options :=
      { resultPrefix := none, isExome := false, exomeRegionFileName := none, verbose := false } }

/-- The loop `for (int i = 1; i < argn; ++i)` (lines 54-86), entered at its
test with counter `i`; one unit of fuel is one pass through the body. -/
def parseLoop (args : List String) : Nat → Nat → ParseState → LoopOutcome
  | fuel, i, st =>
    if i < args.length then
      match fuel with
      | 0 => .outOfFuel
      | fuel + 1 =>
        match readArg args i with
        | .outOfBounds => .fault .outOfBounds
        | .null => .fault .nullDeref
        | .str flag =>
          if flag = "-i" then
            if st.indexPrefix.isSome then
              .exit 1 ("Usage Error: Multiple indexes specified.\n\n" :: printCommandUsage args[0]?)
            else
              match readArg args (i + 1) with
              | .outOfBounds => .fault .outOfBounds
              | v => parseLoop args fuel (i + 1 + 1) { st with indexPrefix := v.toPtr }
          else if flag = "-o" then
            if st.input_options.resultPrefix.isSome then
              .exit 1 ("Usage Error: Multiple Output Prefixes specified.\n" ::
                printCommandUsage args[0]?)
            else
              match readArg args (i + 1) with
              | .outOfBounds => .fault .outOfBounds
              | v => parseLoop args fuel (i + 1 + 1)
                  { st with input_options := { st.input_options with resultPrefix := v.toPtr } }
          else if flag = "-e" then
            if st.input_options.exomeRegionFileName.isSome then
              .exit 1 ("Usage Error: Multiple Exome Region Index specified.\n" ::
                printCommandUsage args[0]?)
            else
              match readArg args (i + 1) with
              | .outOfBounds => .fault .outOfBounds
              | v => parseLoop args fuel (i + 1 + 1)
                  { st with input_options :=
                    { st.input_options with exomeRegionFileName := v.toPtr, isExome := true } }
          else if flag = "-v" then
            parseLoop args fuel (i + 1)
              { st with input_options := { st.input_options with verbose := true } }
          else
            .exit 1 ("Usage Error: Invalid arguments.\n" :: printCommandUsage args[0]?)
    else .done st

/-- The function `parseCommandlineArguments(argn, args, indexPrefix, input_options)`
with `argn = args.length`; `dirOfPrefixExists` is the function of that name
declared in the included headers. -/
def parseCommandlineArguments (dirOfPrefixExists : String → Bool) (args : List String) :
    ParseOutcome :=
  if args.length ≤ 1 then
    .exit 1 (printCommandUsage args[0]?)
  else
    match parseLoop args args.length 1 initState with
    | .exit code err => .exit code err
    | .fault why => .fault why
    | .outOfFuel => .outOfFuel
    | .done st =>
      match st.indexPrefix with
      | none => .exit 1 ("Usage Error: Missing index.\n" :: printCommandUsage args[0]?)
      | some indexPrefix =>
        match st.input_options.resultPrefix with
        | none => .exit 1 ("Usage Error: Missing Output Prefix.\n" :: printCommandUsage args[0]?)
        | some resultPrefix =>
          if !dirOfPrefixExists indexPrefix then
            .exit 1 ["Error: The directory of Reference Index doesn't exists.\n"]
          else if !dirOfPrefixExists resultPrefix then
            .exit 1 ["Error: The directory of Output Prefix doesn't exists.\n"]
          else .ret st

/-- The same loop read off the arguments that are still ahead: `rest` is
`args[i], ..., args[argn - 1]` and `programName` is `args[0]`. -/
def scanFlags (programName : Option String) : List String → ParseState → LoopOutcome
  | [], st => .done st
  | flag :: rest, st =>
    if flag = "-i" then
      if st.indexPrefix.isSome then
        .exit 1 ("Usage Error: Multiple indexes specified.\n\n" :: printCommandUsage programName)
      else
        match rest with
        | [] => .done { st with indexPrefix := none }
        | v :: rest => scanFlags programName rest { st with indexPrefix := some v }
    else if flag = "-o" then
      if st.input_options.resultPrefix.isSome then
        .exit 1 ("Usage Error: Multiple Output Prefixes specified.\n" ::
          printCommandUsage programName)
      else
        match rest with
        | [] => .done { st with input_options := { st.input_options with resultPrefix := none } }
        | v :: rest => scanFlags programName rest
            { st with input_options := { st.input_options with resultPrefix := some v } }
    else if flag = "-e" then
      if st.input_options.exomeRegionFileName.isSome then
        .exit 1 ("Usage Error: Multiple Exome Region Index specified.\n" ::
          printCommandUsage programName)
      else
        match rest with
        | [] => .done { st with input_options :=
            { st.input_options with exomeRegionFileName := none, isExome := true } }
        | v :: rest => scanFlags programName rest
            { st with input_options :=
              { st.input_options with exomeRegionFileName := some v, isExome := true } }
    else if flag = "-v" then
      scanFlags programName rest
        { st with input_options := { st.input_options with verbose := true } }
    else
      .exit 1 ("Usage Error: Invalid arguments.\n" :: printCommandUsage programName)

/-! ## main

A run of `main` is the list of its calls to functions defined outside the
file, with what it wrote to the error stream, and the way it ended. Progress
messages on standard output and the timing calls take no part in the control
flow and are left out. The index and counter data that `loadIndex` and
`readSnpInfoSnapshot` build are only handed on from one callee to the next and
are not modelled. -/

/-- The machine arithmetic of `size_t`. -/
def sizeT (n : Nat) : Nat := n % 2 ^ 64

/-- The function `strlen`: the number of bytes before the terminating zero. -/
def strlen (s : String) : Nat := s.utf8ByteSize

/-- The size given to `xmalloc` for `iniFileName` (line 134). -/
def iniFileNameSize (argv0 : String) : Nat := sizeT (strlen argv0 + 5)

/-- The string the two `strcpy` calls build in `iniFileName` (lines 135-136). -/
def iniFileName (argv0 : String) : String := argv0 ++ ".ini"

/-- The size given to `malloc` for `snapshotFileName` (line 203). -/
def snapshotFileNameSize (resultPrefix : String) : Nat := sizeT (strlen resultPrefix + 10)

/-- The string `sprintf` writes to `snapshotFileName` (line 205). -/
def snapshotFileName (resultPrefix : String) : String := resultPrefix ++ ".snapshot"

/-- The size given to `malloc` for `snp_noRF_filename` (line 223). -/
def snp_noRF_filenameSize (resultPrefix : String) : Nat := sizeT (strlen resultPrefix + 12)

/-- The string `sprintf` writes to `snp_noRF_filename` (line 226). -/
def snp_noRF_filename (resultPrefix : String) : String := resultPrefix ++ ".tmpresult"

/-- The size given to `malloc` for `snp_filename` (line 224). -/
def snp_filenameSize (resultPrefix : String) : Nat := sizeT (strlen resultPrefix + 10)

/-- The string `sprintf` writes to `snp_filename` (line 227). -/
def snp_filename (resultPrefix : String) : String := resultPrefix ++ ".txt"

/-- The array `exomeRegion` after the load: `numExomeRegion` records were
allocated, and `stored` are the bytes `fread` put into it, from its start; the
bytes after them were never written. -/
structure ExomeRegionTable where
  numExomeRegion : Nat
  stored : List Nat
  deriving DecidableEq, Repr

/-- A call from `main` to a function defined outside the file, with the
arguments that matter here, or a message on the error stream. -/
inductive Event where
  | stderr (text : String)
  | xmalloc (what : String) (size : Nat)
  | ParseIniFile (iniFileName : String)
  | xfree (what : String)
  | processIndexFileName (indexPrefix : Option String)
  | loadIndex
  | fopen (name : String)
  | fread (what : String) (size : Nat) (count : Nat)
  | malloc (what : String) (size : Nat)
  | fclose
  | BWTFree (what : String)
  | readSnpInfoSnapshot (snapshotFileName : String)
  | free (what : String)
  | prefill_likelihood_cache_with_p_err
  | selectPossibleSNPs (attriSize : Nat) (isExome : Bool)
      (exomeRegion : Option ExomeRegionTable) (numExomeRegion : Nat)
      (input_options : InputOptions) (snp_noRF_filename : String)
  | calRFpedictProb (snp_noRF_filename : String) (snp_filename : String) (attriSize : Nat)
      (verbose : Bool)
  | remove (fileName : String)
  | destroySnpOverflowCounter
  | destroyMemoryPool
  | destroySnpCounter
  | HSPFree
  deriving DecidableEq, Repr

/-- What `main` takes from outside the file. -/
structure Env where
  /-- The value `sigaction(SIGSEGV, ...)` returns. -/
  sigaction : Int
  /-- The status `ParseIniFile` returns for a file name. -/
  ParseIniFile : String → Int
  /-- The function `dirOfPrefixExists`. -/
  dirOfPrefixExists : String → Bool
  /-- Whether a call of a function of the project returns to `main`; when it
  does not, the callee has ended the process. -/
  returns : Event → Bool
  /-- The macro `SNP_STAT_FLAG`. -/
  SNP_STAT_FLAG : Nat
  /-- The value of `sizeof(ExomeRegion)`. -/
  sizeofExomeRegion : Nat
  /-- The value of `sizeof(LikelihoodCache)`. -/
  sizeofLikelihoodCache : Nat
  /-- The bytes of the file `fopen(name, "rb")` opens, each below 256; `none` when it gives `NULL`. -/
  fopen : String → Option (List Nat)
  /-- Whether a `malloc` call gives a pointer that is not null. -/
  nonNull : Event → Bool
  /-- The content of `attriSize` after a call of `selectPossibleSNPs` has returned. -/
  attriSizeAfter : Event → Nat

/-- How a run of `main` ends. -/
inductive Status where
  /-- The function `main` returned `code`. -/
  | returned (code : Nat)
  /-- The call `exit(code)` was made in this file. -/
  | exited (code : Nat)
  /-- A called function of the project did not return. -/
  | calleeEnded
  /-- A null pointer was handed to a library function that reads or writes through it. -/
  | fault (what : String)
  /-- The model of the parser ran out of fuel. -/
  | outOfFuel
  deriving DecidableEq, Repr

/-- A run of `main`: its events in order, and how it ended. -/
structure Run where
  trace : List Event
  status : Status
  deriving DecidableEq, Repr

/-- The end of a run. -/
def halt (s : Status) : Run := ⟨[], s⟩

/-- An event that always comes back to `main`, followed by the rest of the run. -/
def emit (e : Event) (k : Run) : Run := ⟨e :: k.trace, k.status⟩

/-- Lines on the error stream, followed by the rest of the run. -/
def errs (lines : List String) (k : Run) : Run := ⟨lines.map Event.stderr ++ k.trace, k.status⟩

/-- A call of a function of the project, followed by the rest of the run when it returns. -/
def call (env : Env) (e : Event) (k : Run) : Run :=
  if env.returns e then emit e k else ⟨[e], .calleeEnded⟩

/-- The value of up to four bytes read as a little-endian unsigned integer. -/
def leU32 : List Nat → Nat
  | [] => 0
  | b :: bs => b % 256 + 256 * leU32 bs

/-- The exome-region load (lines 169-194); `k` is the rest of `main`, given
`exomeRegion` and `numExomeRegion`. Neither `fread` result is looked at. The
count is read into `numExomeRegion`, which holds 0 before: from a file with
fewer than four bytes glibc stores the bytes there are. The second `fread`
stores the bytes the file still has, up to the size of the array. -/
def mainExome (env : Env) (input_options : InputOptions)
    (k : Option ExomeRegionTable → Nat → Run) : Run :=
  if env.SNP_STAT_FLAG &&& env.SNP_STAT_FLAG ≠ 0 then
    if input_options.isExome then
      match input_options.exomeRegionFileName with
      | none => halt (.fault "fopen(NULL)")
      | some name =>
        emit (.fopen name) <|
        match env.fopen name with
        | none =>
          emit (.stderr ("Exome Region Index " ++ name ++ " doesn't exist\n")) (halt (.exited 1))
        | some bytes =>
          let numExomeRegion := leU32 (bytes.take 4)
          let size := sizeT (numExomeRegion * env.sizeofExomeRegion)
          let stored := (bytes.drop 4).take size
          emit (.fread "numExomeRegion" 4 1) <|
          emit (.malloc "exomeRegion" size) <|
          if env.nonNull (.malloc "exomeRegion" size) then
            emit (.fread "exomeRegion" env.sizeofExomeRegion numExomeRegion) <|
            emit .fclose <|
            k (some ⟨numExomeRegion, stored⟩) numExomeRegion
          else if stored = [] then
            emit (.fread "exomeRegion" env.sizeofExomeRegion numExomeRegion) <|
            emit (.stderr "Error loading Exome Region Index\n") (halt (.exited 1))
          else
            halt (.fault "fread(NULL)")
    else k none 0
  else k none 0

/-- The snapshot, selection and calibration part (lines 199-260); `k` is the
rest of `main`. -/
def mainSnp (env : Env) (input_options : InputOptions)
    (exomeRegion : Option ExomeRegionTable) (numExomeRegion : Nat) (k : Run) : Run :=
  if env.SNP_STAT_FLAG &&& env.SNP_STAT_FLAG ≠ 0 then
    match input_options.resultPrefix with
    | none => halt (.fault "strlen(NULL)")
    | some resultPrefix =>
      emit (.malloc "snapshotFileName" (snapshotFileNameSize resultPrefix)) <|
      if !env.nonNull (.malloc "snapshotFileName" (snapshotFileNameSize resultPrefix)) then
        halt (.fault "sprintf(NULL)")
      else
      call env (.readSnpInfoSnapshot (snapshotFileName resultPrefix)) <|
      emit (.free "snapshotFileName") <|
      emit (.malloc "snp_noRF_filename" (snp_noRF_filenameSize resultPrefix)) <|
      emit (.malloc "snp_filename" (snp_filenameSize resultPrefix)) <|
      if !env.nonNull (.malloc "snp_noRF_filename" (snp_noRF_filenameSize resultPrefix)) then
        halt (.fault "sprintf(NULL)")
      else if !env.nonNull (.malloc "snp_filename" (snp_filenameSize resultPrefix)) then
        halt (.fault "sprintf(NULL)")
      else
      emit (.malloc "likelihood_cache" env.sizeofLikelihoodCache) <|
      call env .prefill_likelihood_cache_with_p_err <|
      let attriSize := 0
      let select := Event.selectPossibleSNPs attriSize input_options.isExome exomeRegion
        numExomeRegion input_options (snp_noRF_filename resultPrefix)
      call env select <|
      let attriSize := env.attriSizeAfter select
      call env (.calRFpedictProb (snp_noRF_filename resultPrefix) (snp_filename resultPrefix)
        attriSize input_options.verbose) <|
      emit (.remove (snp_noRF_filename resultPrefix)) <|
      emit (.free "snp_noRF_filename") <|
      emit (.free "snp_filename") <|
      call env .destroySnpOverflowCounter <|
      call env .destroyMemoryPool <|
      call env .destroySnpCounter <|
      call env (.xfree "invalidSnpCounterPos") <|
      emit (.free "likelihood_cache") <|
      k
  else k

/-- The function `main(argc, argv)` for the argument vector `argv0 :: rest`. -/
def main (env : Env) (argv0 : String) (rest : List String) : Run :=
  if env.sigaction = -1 then
    emit (.stderr "sigsegv singal handler registration error\n") (halt (.exited 1))
  else
    call env (.xmalloc "iniFileName" (iniFileNameSize argv0)) <|
    call env (.ParseIniFile (iniFileName argv0)) <|
    if env.ParseIniFile (iniFileName argv0) ≠ 0 then
      emit (.stderr ("Failed to parse configuration file ... " ++ iniFileName argv0 ++ "\n"))
        (halt (.returned 1))
    else
      call env (.xfree "iniFileName") <|
      match parseCommandlineArguments env.dirOfPrefixExists (argv0 :: rest) with
      | .exit code err => errs err (halt (.exited code))
      | .fault _ => halt (.fault "parseCommandlineArguments")
      | .outOfFuel => halt .outOfFuel
      | .ret st =>
        call env (.processIndexFileName st.indexPrefix) <|
        call env .loadIndex <|
        mainExome env st.input_options fun exomeRegion numExomeRegion =>
        call env (.BWTFree "bwt") <|
        call env (.BWTFree "revBwt") <|
        mainSnp env st.input_options exomeRegion numExomeRegion <|
        call env .HSPFree <|
        halt (.returned 0)

/-! ## Command lines, as the specification describes them -/

/-- Whether a scan that starts at a flag position, steps over the value after
`-i`, `-o` and `-e`, and goes on after `-v`, meets a token that is none of the
four flags. -/
def hasUnknownFlag : List String → Bool
  | [] => false
  | flag :: rest =>
    if flag = "-i" ∨ flag = "-o" ∨ flag = "-e" then
      match rest with
      | [] => false
      | _ :: rest => hasUnknownFlag rest
    else if flag = "-v" then hasUnknownFlag rest
    else true

/-- One group of a well-formed command line: a flag with its value, or `-v`. -/
inductive CliItem where
  | index (x : String)
  | output (y : String)
  | exome (z : String)
  | verbose
  deriving DecidableEq, Repr

/-- The tokens of one group. -/
def CliItem.tokens : CliItem → List String
  | .index x => ["-i", x]
  | .output y => ["-o", y]
  | .exome z => ["-e", z]
  | .verbose => ["-v"]

/-- The tokens of a sequence of groups, in order. -/
def tokensOf : List CliItem → List String
  | [] => []
  | item :: items => item.tokens ++ tokensOf items

/-- The values given with `-i`, in order. -/
def indexValues : List CliItem → List String
  | [] => []
  | .index x :: items => x :: indexValues items
  | _ :: items => indexValues items

/-- The values given with `-o`, in order. -/
def outputValues : List CliItem → List String
  | [] => []
  | .output y :: items => y :: outputValues items
  | _ :: items => outputValues items

/-- The values given with `-e`, in order. -/
def exomeValues : List CliItem → List String
  | [] => []
  | .exome z :: items => z :: exomeValues items
  | _ :: items => exomeValues items

/-- Whether `-v` is among the groups. -/
def hasVerbose : List CliItem → Bool
  | [] => false
  | .verbose :: _ => true
  | _ :: items => hasVerbose items

/-! ## Properties of runs and traces that the statements use -/

/-- A usage exit: exit code 1 with the usage text as the last thing written. -/
def UsageExit (programName : Option String) (o : LoopOutcome) : Prop :=
  ∃ err, o = .exit 1 err ∧ printCommandUsage programName <:+ err

/-- Every event of the run satisfies `ok`. -/
def AllEvents (ok : Event → Prop) (r : Run) : Prop := ∀ e ∈ r.trace, ok e

/-- A property of runs that carries over from the rest of a run to the run:
it holds when the run ends without `main` returning 0, and it is kept when an
event that satisfies `skip` is put in front. -/
structure Liftable (skip : Event → Prop) (R : Run → Prop) : Prop where
  halt : ∀ s, s ≠ .returned 0 → R (halt s)
  emit : ∀ e k, skip e → R k → R (emit e k)
  stop : ∀ e, skip e → R ⟨[e], .calleeEnded⟩

/-- The events of `main` outside the snapshot, selection and calibration part. -/
def isOuterEvent : Event → Bool
  | .readSnpInfoSnapshot _ => false
  | .selectPossibleSNPs _ _ _ _ _ _ => false
  | .calRFpedictProb _ _ _ _ => false
  | .remove _ => false
  | _ => true

/-- The end of `main` after the snapshot, selection and calibration part (lines 262-265). -/
def mainEnd (env : Env) : Run := call env .HSPFree (halt (.returned 0))

/-- An environment in which the configuration file cannot be parsed. -/
def envIniFails : Env :=
  { sigaction := 0, ParseIniFile := fun _ => 1, dirOfPrefixExists := fun _ => true,
    returns := fun _ => true, SNP_STAT_FLAG := 1, sizeofExomeRegion := 8,
    sizeofLikelihoodCache := 64, fopen := fun _ => none,
    nonNull := fun _ => true, attriSizeAfter := fun _ => 0 }

/-- The event `a` comes right before the event `b` in the trace `t`. -/
def Adjacent (a b : Event) (t : List Event) : Prop := ∃ pre post, t = pre ++ a :: b :: post

/-- Every event of the run that satisfies `isB` comes right after an event
that stands in the relation `A` to it. -/
def PrecededBy (isB : Event → Prop) (A : Event → Event → Prop) (r : Run) : Prop :=
  ∀ b ∈ r.trace, isB b → ∃ a, A a b ∧ Adjacent a b r.trace

/-- The event is a call of `calRFpedictProb`. -/
def isCalibration : Event → Prop
  | .calRFpedictProb _ _ _ _ => True
  | _ => False

/-- The event `a` is a call of `selectPossibleSNPs` on a count cell that holds
0, and `b` is a call of `calRFpedictProb` that reads the file `a` wrote and is
given the content of the cell after `a`. -/
def SelectedFor (env : Env) (a b : Event) : Prop :=
  ∃ ie er ne io inF outF v,
    a = .selectPossibleSNPs 0 ie er ne io inF ∧
    b = .calRFpedictProb inF outF (env.attriSizeAfter a) v

/-- The events of the snapshot, selection and calibration part when everything in it succeeds. -/
def snpTrace (env : Env) (input_options : InputOptions) (t : Option ExomeRegionTable) (n : Nat)
    (P : String) : List Event :=
  [ .malloc "snapshotFileName" (snapshotFileNameSize P),
    .readSnpInfoSnapshot (snapshotFileName P),
    .free "snapshotFileName",
    .malloc "snp_noRF_filename" (snp_noRF_filenameSize P),
    .malloc "snp_filename" (snp_filenameSize P),
    .malloc "likelihood_cache" env.sizeofLikelihoodCache,
    .prefill_likelihood_cache_with_p_err,
    .selectPossibleSNPs 0 input_options.isExome t n input_options (snp_noRF_filename P),
    .calRFpedictProb (snp_noRF_filename P) (snp_filename P)
      (env.attriSizeAfter
        (.selectPossibleSNPs 0 input_options.isExome t n input_options (snp_noRF_filename P)))
      input_options.verbose,
    .remove (snp_noRF_filename P),
    .free "snp_noRF_filename",
    .free "snp_filename",
    .destroySnpOverflowCounter,
    .destroyMemoryPool,
    .destroySnpCounter,
    .xfree "invalidSnpCounterPos",
    .free "likelihood_cache",
    .HSPFree ]

/-- A run that returned 0 went through the snapshot, selection and calibration
part for an accepted command line, and that part returned 0 as well. -/
def ReachedSnp (env : Env) (argv0 : String) (rest : List String) (r : Run) : Prop :=
  r.status = .returned 0 →
    ∃ st t n pre,
      parseCommandlineArguments env.dirOfPrefixExists (argv0 :: rest) = .ret st ∧
      r.trace = pre ++ (mainSnp env st.input_options t n (mainEnd env)).trace ∧
      (mainSnp env st.input_options t n (mainEnd env)).status = .returned 0

/-- An environment in which every call succeeds; the exome file holds the
count 2 and then a single record of 8 bytes. -/
def envShortExome : Env :=
  { sigaction := 0, ParseIniFile := fun _ => 0, dirOfPrefixExists := fun _ => true,
    returns := fun _ => true, SNP_STAT_FLAG := 1, sizeofExomeRegion := 8,
    sizeofLikelihoodCache := 64,
    fopen := fun _ => some [2, 0, 0, 0, 232, 3, 0, 0, 208, 7, 0, 0],
    nonNull := fun _ => true, attriSizeAfter := fun _ => 7 }

/-- The file names in the event are the ones built from the output prefix `P`. -/
def NamesFrom (P : String) : Event → Prop
  | .readSnpInfoSnapshot f => f = P ++ ".snapshot"
  | .selectPossibleSNPs _ _ _ _ _ f => f = P ++ ".tmpresult"
  | .calRFpedictProb i o _ _ => i = P ++ ".tmpresult" ∧ o = P ++ ".txt"
  | _ => True

/-! ## The counter loop and the scan of the remaining arguments -/

theorem readArg_lt (args : List String) (i : Nat) (h : i < args.length) :
    readArg args i = .str (args.get ⟨i, h⟩) := by
  simp [readArg, h]

theorem readArg_length (args : List String) : readArg args args.length = .null := by
  simp [readArg]

theorem parseLoop_ge (args : List String) (fuel i : Nat) (st : ParseState)
    (h : args.length ≤ i) : parseLoop args fuel i st = .done st := by
  unfold parseLoop
  simp [Nat.not_lt.mpr h]

/-- With fuel for the arguments still ahead, the counter loop is the scan of
the remaining arguments. -/
theorem parseLoop_eq_scanFlags (args : List String) :
    ∀ (fuel i : Nat) (st : ParseState), args.length - i ≤ fuel →
      parseLoop args fuel i st = scanFlags args[0]? (args.drop i) st := by
  intro fuel
  induction fuel with
  | zero =>
    intro i st h
    have hi : args.length ≤ i := by omega
    rw [parseLoop_ge args 0 i st hi, List.drop_eq_nil_of_le hi, scanFlags]
  | succ fuel ih =>
    intro i st h
    by_cases hi : i < args.length
    · have hd : args.drop i = args.get ⟨i, hi⟩ :: args.drop (i + 1) := by
        exact List.drop_eq_getElem_cons hi
      have hnext : ∀ st1 : ParseState,
          parseLoop args fuel (i + 1) st1 = scanFlags args[0]? (args.drop (i + 1)) st1 :=
        fun st1 => ih (i + 1) st1 (by omega)
      have hskip : ∀ st1 : ParseState,
          parseLoop args fuel (i + 1 + 1) st1 = scanFlags args[0]? (args.drop (i + 1 + 1)) st1 :=
        fun st1 => ih (i + 1 + 1) st1 (by omega)
      rw [hd]
      unfold parseLoop
      simp only [hi, if_true, readArg_lt args i hi]
      by_cases hv : i + 1 < args.length
      · have hd1 : args.drop (i + 1) = args.get ⟨i + 1, hv⟩ :: args.drop (i + 1 + 1) := by
          exact List.drop_eq_getElem_cons hv
        rw [scanFlags.eq_def]
        simp only [readArg_lt args (i + 1) hv, hnext, hskip, ArgRead.toPtr]
        rw [hd1]
      · have hlen : i + 1 = args.length := by omega
        have hnil : args.drop (i + 1) = [] := List.drop_eq_nil_of_le (by omega)
        have hdone : ∀ st1 : ParseState, parseLoop args fuel (i + 1 + 1) st1 = .done st1 :=
          fun st1 => parseLoop_ge args fuel _ st1 (by omega)
        have hdone1 : ∀ st1 : ParseState, parseLoop args fuel (i + 1) st1 = .done st1 :=
          fun st1 => parseLoop_ge args fuel _ st1 (by omega)
        have hread : readArg args (i + 1) = .null := by rw [hlen]; exact readArg_length args
        rw [scanFlags.eq_def]
        simp only [hread, hnil, hdone, hdone1, ArgRead.toPtr]
        simp [scanFlags]
    · have hi2 : args.length ≤ i := by omega
      rw [parseLoop_ge args _ i st hi2, List.drop_eq_nil_of_le hi2, scanFlags]

/-! ## The parser on arbitrary argument vectors -/

theorem parseLoop_start (args : List String) (st : ParseState) :
    parseLoop args args.length 1 st = scanFlags args[0]? args.tail st := by
  rw [parseLoop_eq_scanFlags args args.length 1 st (by omega)]
  simp

/-- Two-step induction over a list: the step may use the claim for the tail
and for the tail of the tail. -/
theorem list_two_step {α : Type} {P : List α → Prop} (nil : P [])
    (step : ∀ a l, P l → (∀ b l1, l = b :: l1 → P l1) → P (a :: l)) : ∀ l, P l := by
  have key : ∀ l, P l ∧ (∀ b l1, l = b :: l1 → P l1) := by
    intro l
    induction l with
    | nil => exact ⟨nil, fun b l1 h => by cases h⟩
    | cons a l ih =>
      refine ⟨step a l ih.1 ih.2, fun b l1 h => ?_⟩
      cases h
      exact ih.1
  exact fun l => (key l).1

theorem usageExit_cons (programName : Option String) (msg : String) :
    UsageExit programName (.exit 1 (msg :: printCommandUsage programName)) :=
  ⟨_, rfl, List.suffix_cons _ _⟩

/-- The scan ends in a usage exit or runs to the end of the arguments. -/
theorem scanFlags_total (p : Option String) :
    ∀ (l : List String) (st : ParseState),
      UsageExit p (scanFlags p l st) ∨ ∃ st1, scanFlags p l st = .done st1 := by
  intro l
  induction l using list_two_step with
  | nil => intro st; exact Or.inr ⟨st, by simp [scanFlags]⟩
  | step flag rest ih1 ih2 =>
    intro st
    rw [scanFlags.eq_def]
    simp only
    split_ifs
    · exact Or.inl (usageExit_cons _ _)
    · cases rest with
      | nil => exact Or.inr ⟨_, rfl⟩
      | cons v rest => exact ih2 v rest rfl _
    · exact Or.inl (usageExit_cons _ _)
    · cases rest with
      | nil => exact Or.inr ⟨_, rfl⟩
      | cons v rest => exact ih2 v rest rfl _
    · exact Or.inl (usageExit_cons _ _)
    · cases rest with
      | nil => exact Or.inr ⟨_, rfl⟩
      | cons v rest => exact ih2 v rest rfl _
    · exact ih1 _
    · exact Or.inl (usageExit_cons _ _)

/-- Without a `-i` among the arguments the scan leaves `indexPrefix` null. -/
theorem scanFlags_no_index (p : Option String) :
    ∀ (l : List String) (st st1 : ParseState), "-i" ∉ l → st.indexPrefix = none →
      scanFlags p l st = .done st1 → st1.indexPrefix = none := by
  intro l
  induction l using list_two_step with
  | nil =>
    intro st st1 _ h0 h
    simp only [scanFlags, LoopOutcome.done.injEq] at h
    rw [← h]; exact h0
  | step flag rest ih1 ih2 =>
    intro st st1 hmem h0 h
    have hflag : ¬ flag = "-i" := fun e => hmem (by simp [e])
    have hrest : "-i" ∉ rest := fun e => hmem (List.mem_cons_of_mem _ e)
    rw [scanFlags.eq_def] at h
    simp only [hflag, if_false] at h
    split_ifs at h
    · cases rest with
      | nil => simp only [LoopOutcome.done.injEq] at h; rw [← h]; exact h0
      | cons v rest =>
        refine ih2 v rest rfl _ st1 (fun e => hrest (List.mem_cons_of_mem _ e)) ?_ h
        exact h0
    · cases rest with
      | nil => simp only [LoopOutcome.done.injEq] at h; rw [← h]; exact h0
      | cons v rest =>
        refine ih2 v rest rfl _ st1 (fun e => hrest (List.mem_cons_of_mem _ e)) ?_ h
        exact h0
    · refine ih1 _ st1 hrest ?_ h
      exact h0

/-- Without a `-o` among the arguments the scan leaves `resultPrefix` null. -/
theorem scanFlags_no_output (p : Option String) :
    ∀ (l : List String) (st st1 : ParseState), "-o" ∉ l →
      st.input_options.resultPrefix = none →
      scanFlags p l st = .done st1 → st1.input_options.resultPrefix = none := by
  intro l
  induction l using list_two_step with
  | nil =>
    intro st st1 _ h0 h
    simp only [scanFlags, LoopOutcome.done.injEq] at h
    rw [← h]; exact h0
  | step flag rest ih1 ih2 =>
    intro st st1 hmem h0 h
    have hflag : ¬ flag = "-o" := fun e => hmem (by simp [e])
    have hrest : "-o" ∉ rest := fun e => hmem (List.mem_cons_of_mem _ e)
    rw [scanFlags.eq_def] at h
    simp only [hflag, if_false] at h
    split_ifs at h
    · cases rest with
      | nil => simp only [LoopOutcome.done.injEq] at h; rw [← h]; exact h0
      | cons v rest =>
        refine ih2 v rest rfl _ st1 (fun e => hrest (List.mem_cons_of_mem _ e)) ?_ h
        exact h0
    · cases rest with
      | nil => simp only [LoopOutcome.done.injEq] at h; rw [← h]; exact h0
      | cons v rest =>
        refine ih2 v rest rfl _ st1 (fun e => hrest (List.mem_cons_of_mem _ e)) ?_ h
        exact h0
    · refine ih1 _ st1 hrest ?_ h
      exact h0

/-- A token at a flag position that is none of the four flags keeps the scan
from reaching the end of the arguments. -/
theorem scanFlags_unknown (p : Option String) :
    ∀ (l : List String) (st st1 : ParseState), hasUnknownFlag l = true →
      scanFlags p l st ≠ .done st1 := by
  intro l
  induction l using list_two_step with
  | nil => intro st st1 hu; simp [hasUnknownFlag] at hu
  | step flag rest ih1 ih2 =>
    intro st st1 hu h
    rw [hasUnknownFlag.eq_def] at hu
    rw [scanFlags.eq_def] at h
    simp only at hu h
    by_cases hi : flag = "-i"
    · simp only [hi, true_or, if_true] at hu h
      split_ifs at h
      cases rest with
      | nil => simp at hu
      | cons v rest => exact ih2 v rest rfl _ st1 hu h
    by_cases ho : flag = "-o"
    · subst ho
      simp only [hi, true_or, or_true, if_true, if_false] at hu h
      split_ifs at h
      cases rest with
      | nil => simp at hu
      | cons v rest => exact ih2 v rest rfl _ st1 hu h
    by_cases he : flag = "-e"
    · subst he
      simp only [hi, ho, true_or, or_true, if_true, if_false] at hu h
      split_ifs at h
      cases rest with
      | nil => simp at hu
      | cons v rest => exact ih2 v rest rfl _ st1 hu h
    by_cases hv : flag = "-v"
    · subst hv
      simp only [hi, ho, he, or_self, if_true, if_false] at hu h
      exact ih1 _ st1 hu h
    · simp only [hi, ho, he, hv, or_self, if_false] at h
      cases h

theorem parse_eq_scan (dir : String → Bool) (args : List String) (h : 1 < args.length) :
    parseCommandlineArguments dir args =
      match scanFlags args[0]? args.tail initState with
      | .exit code err => .exit code err
      | .fault why => .fault why
      | .outOfFuel => .outOfFuel
      | .done st =>
        match st.indexPrefix with
        | none => .exit 1 ("Usage Error: Missing index.\n" :: printCommandUsage args[0]?)
        | some indexPrefix =>
          match st.input_options.resultPrefix with
          | none =>
            .exit 1 ("Usage Error: Missing Output Prefix.\n" :: printCommandUsage args[0]?)
          | some resultPrefix =>
            if !dir indexPrefix then
              .exit 1 ["Error: The directory of Reference Index doesn't exists.\n"]
            else if !dir resultPrefix then
              .exit 1 ["Error: The directory of Output Prefix doesn't exists.\n"]
            else .ret st := by
  unfold parseCommandlineArguments
  rw [if_neg (by omega), parseLoop_start]

/-- C1: when `-i` is not among the arguments, or `-o` is not among them, or a
token at a flag position is none of `-i`, `-o`, `-e`, `-v` (the vector with
only the program name included), `parseCommandlineArguments` does not return:
it ends the process with exit code 1, and the usage message is the last thing
it wrote to the error stream. -/
theorem parse_usage_exit (dir : String → Bool) (args : List String)
    (h : "-i" ∉ args.tail ∨ "-o" ∉ args.tail ∨ hasUnknownFlag args.tail = true) :
    ∃ err, parseCommandlineArguments dir args = .exit 1 err ∧
      printCommandUsage args[0]? <:+ err := by
  by_cases hlen : args.length ≤ 1
  · exact ⟨_, by simp [parseCommandlineArguments, hlen], List.suffix_refl _⟩
  · rw [parse_eq_scan dir args (by omega)]
    rcases scanFlags_total args[0]? args.tail initState with ⟨err, he, hs⟩ | ⟨st1, hd⟩
    · exact ⟨err, by rw [he], hs⟩
    · rw [hd]
      rcases h with h | h | h
      · have := scanFlags_no_index _ _ _ _ h rfl hd
        simp only [this]
        exact ⟨_, rfl, List.suffix_cons _ _⟩
      · have := scanFlags_no_output _ _ _ _ h rfl hd
        cases hip : st1.indexPrefix with
        | none =>
          simp only [hip]
          exact ⟨_, rfl, List.suffix_cons _ _⟩
        | some ip =>
          simp only [hip, this]
          exact ⟨_, rfl, List.suffix_cons _ _⟩
      · exact absurd hd (scanFlags_unknown _ _ _ _ h)

theorem parse_usage_exit_witness :
    ("-i" ∉ ["snapshotSnpcaller", "-o", "out/run"].tail ∨
      "-o" ∉ ["snapshotSnpcaller", "-o", "out/run"].tail ∨
      hasUnknownFlag ["snapshotSnpcaller", "-o", "out/run"].tail = true) ∧
    ∃ err, parseCommandlineArguments (fun _ => true) ["snapshotSnpcaller", "-o", "out/run"] =
        .exit 1 err ∧
      printCommandUsage (["snapshotSnpcaller", "-o", "out/run"])[0]? <:+ err :=
  ⟨Or.inl (by decide),
    parse_usage_exit (fun _ => true) ["snapshotSnpcaller", "-o", "out/run"] (Or.inl (by decide))⟩

/-! ## The parser on well-formed command lines -/

theorem tokensOf_index (x : String) (items : List CliItem) :
    tokensOf (.index x :: items) = "-i" :: x :: tokensOf items := rfl

theorem tokensOf_output (y : String) (items : List CliItem) :
    tokensOf (.output y :: items) = "-o" :: y :: tokensOf items := rfl

theorem tokensOf_exome (z : String) (items : List CliItem) :
    tokensOf (.exome z :: items) = "-e" :: z :: tokensOf items := rfl

theorem tokensOf_verbose (items : List CliItem) :
    tokensOf (.verbose :: items) = "-v" :: tokensOf items := rfl

/-- The scan of a sequence of groups in which, together with what the state
already holds, each of `-i`, `-o`, `-e` comes at most once: it reaches the end
and every field holds what its group gave. -/
theorem scanFlags_tokensOf (p : Option String) :
    ∀ (items : List CliItem) (st : ParseState),
      (st.indexPrefix.toList ++ indexValues items).length ≤ 1 →
      (st.input_options.resultPrefix.toList ++ outputValues items).length ≤ 1 →
      (st.input_options.exomeRegionFileName.toList ++ exomeValues items).length ≤ 1 →
      scanFlags p (tokensOf items) st = .done
        { indexPrefix := (st.indexPrefix.toList ++ indexValues items).head?,
          input_options :=
            { resultPrefix := (st.input_options.resultPrefix.toList ++ outputValues items).head?,
              isExome := st.input_options.isExome || !(exomeValues items).isEmpty,
              exomeRegionFileName :=
                (st.input_options.exomeRegionFileName.toList ++ exomeValues items).head?,
              verbose := st.input_options.verbose || hasVerbose items } } := by
  intro items
  induction items with
  | nil =>
    intro st _ _ _
    obtain ⟨ip, rp, ie, ef, vb⟩ := st
    cases ip <;> cases rp <;> cases ef <;>
      simp [tokensOf, scanFlags, indexValues, outputValues, exomeValues, hasVerbose]
  | cons item items ih =>
    intro st h1 h2 h3
    obtain ⟨ip, rp, ie, ef, vb⟩ := st
    cases item with
    | index x =>
      cases ip with
      | some a => simp [indexValues] at h1
      | none =>
        simp only [indexValues, Option.toList, List.nil_append, List.length_cons] at h1
        have h0 : indexValues items = [] := List.eq_nil_of_length_eq_zero (by omega)
        have key := ih ⟨some x, ⟨rp, ie, ef, vb⟩⟩ (by simp [h0]) h2 h3
        rw [tokensOf_index, scanFlags]
        simp only [Option.isSome, if_true, Bool.false_eq_true, if_false]
        rw [key]
        simp [indexValues, outputValues, exomeValues, hasVerbose, h0]
    | output y =>
      cases rp with
      | some a => simp [outputValues] at h2
      | none =>
        simp only [outputValues, Option.toList, List.nil_append, List.length_cons] at h2
        have h0 : outputValues items = [] := List.eq_nil_of_length_eq_zero (by omega)
        have key := ih ⟨ip, ⟨some y, ie, ef, vb⟩⟩ h1 (by simp [h0]) h3
        rw [tokensOf_output, scanFlags]
        simp only [Option.isSome, if_true, Bool.false_eq_true, if_false,
          (by decide : ¬ "-o" = "-i")]
        rw [key]
        simp [indexValues, outputValues, exomeValues, hasVerbose, h0]
    | exome z =>
      cases ef with
      | some a => simp [exomeValues] at h3
      | none =>
        simp only [exomeValues, Option.toList, List.nil_append, List.length_cons] at h3
        have h0 : exomeValues items = [] := List.eq_nil_of_length_eq_zero (by omega)
        have key := ih ⟨ip, ⟨rp, true, some z, vb⟩⟩ h1 h2 (by simp [h0])
        rw [tokensOf_exome, scanFlags]
        simp only [Option.isSome, if_true, Bool.false_eq_true, if_false,
          (by decide : ¬ "-e" = "-i"), (by decide : ¬ "-e" = "-o")]
        rw [key]
        simp [indexValues, outputValues, exomeValues, hasVerbose, h0]
    | verbose =>
      have key := ih ⟨ip, ⟨rp, ie, ef, true⟩⟩ h1 h2 h3
      rw [tokensOf_verbose, scanFlags.eq_def]
      simp only [if_true, if_false,
        (by decide : ¬ "-v" = "-i"), (by decide : ¬ "-v" = "-o"), (by decide : ¬ "-v" = "-e")]
      rw [key]
      simp [indexValues, outputValues, exomeValues, hasVerbose]

/-- C3: for the program name followed, in any order, by exactly one `-i X`,
exactly one `-o Y`, at most one `-e Z` and any number of `-v`, with
`dirOfPrefixExists` true for `X` and for `Y`, `parseCommandlineArguments`
returns with `indexPrefix = X`, `resultPrefix = Y`, `verbose` true iff `-v` was
given, `isExome` true iff the `-e` pair was given, and `exomeRegionFileName`
the value `Z` when given and null otherwise. -/
theorem parse_wellformed (dir : String → Bool) (prog X Y : String) (Z : Option String)
    (items : List CliItem)
    (hi : indexValues items = [X]) (ho : outputValues items = [Y])
    (he : exomeValues items = Z.toList)
    (hX : dir X = true) (hY : dir Y = true) :
    parseCommandlineArguments dir (prog :: tokensOf items) = .ret
      { indexPrefix := some X,
        input_options :=
          { resultPrefix := some Y, isExome := Z.isSome, exomeRegionFileName := Z,
            verbose := hasVerbose items } } := by
  have hlen : 1 < (prog :: tokensOf items).length := by
    cases items with
    | nil => simp [indexValues] at hi
    | cons item items => cases item <;> simp [tokensOf, CliItem.tokens]
  rw [parse_eq_scan dir _ hlen]
  simp only [List.tail_cons]
  rw [scanFlags_tokensOf _ items initState (by simp [initState, hi]) (by simp [initState, ho])
    (by cases Z <;> simp [initState, he])]
  cases Z <;> simp [initState, hi, ho, he, hX, hY]

theorem parse_wellformed_witness :
    parseCommandlineArguments (fun _ => true)
        ("snapshotSnpcaller" ::
          tokensOf [.verbose, .output "out/run", .exome "exome.idx", .index "ref/hg19"]) = .ret
      { indexPrefix := some "ref/hg19",
        input_options :=
          { resultPrefix := some "out/run", isExome := (some "exome.idx").isSome,
            exomeRegionFileName := some "exome.idx",
            verbose := hasVerbose [.verbose, .output "out/run", .exome "exome.idx",
              .index "ref/hg19"] } } :=
  parse_wellformed (fun _ => true) "snapshotSnpcaller" "ref/hg19" "out/run" (some "exome.idx")
    [.verbose, .output "out/run", .exome "exome.idx", .index "ref/hg19"] rfl rfl rfl rfl rfl

/-- The parser ends the process with exit code 1 only. -/
theorem parse_exit_code (dir : String → Bool) (args : List String) (code : Nat)
    (err : List String) (h : parseCommandlineArguments dir args = .exit code err) : code = 1 := by
  by_cases hlen : args.length ≤ 1
  · simp [parseCommandlineArguments, hlen] at h
    exact h.1.symm
  · rw [parse_eq_scan dir args (by omega)] at h
    rcases scanFlags_total args[0]? args.tail initState with ⟨e, he, _⟩ | ⟨st1, hd⟩
    · rw [he] at h
      simp at h
      exact h.1.symm
    · rw [hd] at h
      simp only at h
      split at h
      · simp at h; exact h.1.symm
      · split at h
        · simp at h; exact h.1.symm
        · split_ifs at h <;> simp at h <;> exact h.1.symm

/-- The parser reads no entry past `args[argn]`, hands no null pointer to
`strcmp`, and its loop ends: it exits or returns. -/
theorem parse_exit_or_ret (dir : String → Bool) (args : List String) :
    (∃ err, parseCommandlineArguments dir args = .exit 1 err) ∨
      ∃ st X Y, parseCommandlineArguments dir args = .ret st ∧ st.indexPrefix = some X ∧
        st.input_options.resultPrefix = some Y ∧ dir X = true ∧ dir Y = true := by
  by_cases hlen : args.length ≤ 1
  · refine Or.inl ⟨printCommandUsage args[0]?, ?_⟩
    simp [parseCommandlineArguments, hlen]
  · rw [parse_eq_scan dir args (by omega)]
    rcases scanFlags_total args[0]? args.tail initState with ⟨e, he, _⟩ | ⟨st1, hd⟩
    · exact Or.inl ⟨e, by rw [he]⟩
    · rw [hd]
      simp only
      cases hip : st1.indexPrefix with
      | none => exact Or.inl ⟨_, rfl⟩
      | some X =>
        cases hrp : st1.input_options.resultPrefix with
        | none => exact Or.inl ⟨_, rfl⟩
        | some Y =>
          simp only
          by_cases hX : dir X = true
          · by_cases hY : dir Y = true
            · exact Or.inr ⟨st1, X, Y, by simp [hX, hY], hip, hrp, hX, hY⟩
            · refine Or.inl ⟨["Error: The directory of Output Prefix doesn't exists.\n"], ?_⟩
              simp [hX, hY]
          · refine Or.inl ⟨["Error: The directory of Reference Index doesn't exists.\n"], ?_⟩
            simp [hX]

/-! ## Runs of main -/

theorem allEvents_halt (ok : Event → Prop) (s : Status) : AllEvents ok (halt s) ↔ True := by
  simp [AllEvents, halt]

theorem allEvents_emit (ok : Event → Prop) (e : Event) (k : Run) :
    AllEvents ok (emit e k) ↔ ok e ∧ AllEvents ok k := by
  simp [AllEvents, emit]

theorem allEvents_errs (ok : Event → Prop) (lines : List String) (k : Run) :
    AllEvents ok (errs lines k) ↔ (∀ s ∈ lines, ok (.stderr s)) ∧ AllEvents ok k := by
  simp only [AllEvents, errs, List.mem_append, List.mem_map]
  constructor
  · intro h
    exact ⟨fun s hs => h _ (Or.inl ⟨s, hs, rfl⟩), fun e he => h e (Or.inr he)⟩
  · rintro ⟨h1, h2⟩ e (⟨s, hs, rfl⟩ | he)
    · exact h1 s hs
    · exact h2 e he

theorem allEvents_call (ok : Event → Prop) (env : Env) (e : Event) (k : Run) :
    AllEvents ok (call env e k) ↔ ok e ∧ (env.returns e = true → AllEvents ok k) := by
  unfold call
  split_ifs with h
  · simp [allEvents_emit, h]
  · simp [AllEvents, h]

theorem allEvents_ite (ok : Event → Prop) (c : Prop) [Decidable c] (r1 r2 : Run) :
    AllEvents ok (if c then r1 else r2) ↔ (c → AllEvents ok r1) ∧ (¬ c → AllEvents ok r2) := by
  split_ifs with h <;> simp [h]

/-- Events of the exome-region load satisfy `ok` when the ones it makes do and
the rest of the run does. -/
theorem allEvents_mainExome (ok : Event → Prop) (env : Env) (input_options : InputOptions)
    (k : Option ExomeRegionTable → Nat → Run)
    (hk : ∀ t n, AllEvents ok (k t n))
    (hstderr : ∀ s, ok (.stderr s)) (hfopen : ∀ s, ok (.fopen s))
    (hfread : ∀ w a b, ok (.fread w a b)) (hmalloc : ∀ w a, ok (.malloc w a))
    (hfclose : ok .fclose) :
    AllEvents ok (mainExome env input_options k) := by
  unfold mainExome
  split_ifs
  · split
    · simp [allEvents_halt]
    · rw [allEvents_emit]
      refine ⟨hfopen _, ?_⟩
      split
      · simp [allEvents_emit, allEvents_halt, hstderr]
      · simp only [allEvents_emit, allEvents_ite, allEvents_halt]
        simp [hfread, hmalloc, hfclose, hk, hstderr]
  · exact hk _ _
  · exact hk _ _

/-- Events of the snapshot, selection and calibration part satisfy `ok` when
the ones it makes for the output prefix do and the rest of the run does. -/
theorem allEvents_mainSnp (ok : Event → Prop) (env : Env) (input_options : InputOptions)
    (exomeRegion : Option ExomeRegionTable) (numExomeRegion : Nat) (k : Run)
    (hk : AllEvents ok k)
    (hmalloc : ∀ w a, ok (.malloc w a)) (hfree : ∀ w, ok (.free w)) (hxfree : ∀ w, ok (.xfree w))
    (hprefill : ok .prefill_likelihood_cache_with_p_err)
    (hd1 : ok .destroySnpOverflowCounter) (hd2 : ok .destroyMemoryPool)
    (hd3 : ok .destroySnpCounter)
    (hP : ∀ P, input_options.resultPrefix = some P →
      ok (.readSnpInfoSnapshot (snapshotFileName P)) ∧
      ok (.selectPossibleSNPs 0 input_options.isExome exomeRegion numExomeRegion input_options
        (snp_noRF_filename P)) ∧
      (∀ n, ok (.calRFpedictProb (snp_noRF_filename P) (snp_filename P) n
        input_options.verbose)) ∧
      ok (.remove (snp_noRF_filename P))) :
    AllEvents ok (mainSnp env input_options exomeRegion numExomeRegion k) := by
  unfold mainSnp
  split_ifs
  · split
    · simp [allEvents_halt]
    · rename_i P hP1
      obtain ⟨h1, h2, h3, h4⟩ := hP P hP1
      simp only [allEvents_emit, allEvents_ite, allEvents_halt, allEvents_call]
      simp [hmalloc, hfree, hxfree, hprefill, hd1, hd2, hd3, h1, h2, h3, h4, hk]
  · exact hk

/-- Every event of `main` satisfies `ok` when every event `main` can make does. -/
theorem allEvents_main (ok : Event → Prop) (env : Env) (argv0 : String) (rest : List String)
    (hstderr : ∀ s, ok (.stderr s)) (hxmalloc : ∀ w a, ok (.xmalloc w a))
    (hini : ok (.ParseIniFile (iniFileName argv0)))
    (hindex : ∀ x, ok (.processIndexFileName x)) (hload : ok .loadIndex)
    (hfopen : ∀ s, ok (.fopen s)) (hfread : ∀ w a b, ok (.fread w a b))
    (hfclose : ok .fclose) (hbwt : ∀ w, ok (.BWTFree w)) (hhsp : ok .HSPFree)
    (hmalloc : ∀ w a, ok (.malloc w a)) (hfree : ∀ w, ok (.free w)) (hxfree : ∀ w, ok (.xfree w))
    (hprefill : ok .prefill_likelihood_cache_with_p_err)
    (hd1 : ok .destroySnpOverflowCounter) (hd2 : ok .destroyMemoryPool)
    (hd3 : ok .destroySnpCounter)
    (hP : ∀ st P, parseCommandlineArguments env.dirOfPrefixExists (argv0 :: rest) = .ret st →
      st.input_options.resultPrefix = some P →
      ok (.readSnpInfoSnapshot (snapshotFileName P)) ∧
      (∀ t n, ok (.selectPossibleSNPs 0 st.input_options.isExome t n st.input_options
        (snp_noRF_filename P))) ∧
      (∀ n, ok (.calRFpedictProb (snp_noRF_filename P) (snp_filename P) n
        st.input_options.verbose)) ∧
      ok (.remove (snp_noRF_filename P))) :
    AllEvents ok (main env argv0 rest) := by
  unfold main
  rw [allEvents_ite]
  refine ⟨fun _ => by simp [allEvents_emit, allEvents_halt, hstderr], fun _ => ?_⟩
  rw [allEvents_call]
  refine ⟨hxmalloc _ _, fun _ => ?_⟩
  rw [allEvents_call]
  refine ⟨hini, fun _ => ?_⟩
  rw [allEvents_ite]
  refine ⟨fun _ => by simp [allEvents_emit, allEvents_halt, hstderr], fun _ => ?_⟩
  rw [allEvents_call]
  refine ⟨hxfree _, fun _ => ?_⟩
  split
  · simp [allEvents_errs, allEvents_halt, hstderr]
  · simp [allEvents_halt]
  · simp [allEvents_halt]
  · rename_i st hst
    rw [allEvents_call]
    refine ⟨hindex _, fun _ => ?_⟩
    rw [allEvents_call]
    refine ⟨hload, fun _ => ?_⟩
    apply allEvents_mainExome ok env _ _ _ hstderr hfopen hfread hmalloc hfclose
    intro t n
    rw [allEvents_call]
    refine ⟨hbwt _, fun _ => ?_⟩
    rw [allEvents_call]
    refine ⟨hbwt _, fun _ => ?_⟩
    apply allEvents_mainSnp ok env _ _ _ _ _ hmalloc hfree hxfree hprefill hd1 hd2 hd3
    · intro P hP1
      obtain ⟨h1, h2, h3, h4⟩ := hP st P hst hP1
      exact ⟨h1, h2 _ _, h3, h4⟩
    · simp [allEvents_call, allEvents_halt, hhsp]

theorem Liftable.call {skip : Event → Prop} {R : Run → Prop} (L : Liftable skip R)
    (env : Env) (e : Event) (k : Run) (he : skip e) (hk : R k) : R (call env e k) := by
  unfold SnapshotSnpcaller.call
  split_ifs
  · exact L.emit e k he hk
  · exact L.stop e he

theorem Liftable.errs {skip : Event → Prop} {R : Run → Prop} (L : Liftable skip R)
    (hs : ∀ s, skip (.stderr s)) (k : Run) (hk : R k) : ∀ lines, R (errs lines k) := by
  intro lines
  induction lines with
  | nil => exact hk
  | cons s lines ih => exact L.emit (.stderr s) (SnapshotSnpcaller.errs lines k) (hs s) ih

theorem Liftable.mainExome {skip : Event → Prop} {R : Run → Prop} (L : Liftable skip R)
    (hskip : ∀ e, isOuterEvent e = true → skip e)
    (env : Env) (input_options : InputOptions) (k : Option ExomeRegionTable → Nat → Run)
    (hk : ∀ t n, R (k t n)) : R (mainExome env input_options k) := by
  unfold SnapshotSnpcaller.mainExome
  split_ifs
  · split
    · exact L.halt _ (by simp)
    · refine L.emit _ _ (hskip _ rfl) ?_
      split
      · exact L.emit _ _ (hskip _ rfl) (L.halt _ (by simp))
      · simp only
        refine L.emit _ _ (hskip _ rfl) (L.emit _ _ (hskip _ rfl) ?_)
        split_ifs
        · exact L.emit _ _ (hskip _ rfl) (L.emit _ _ (hskip _ rfl) (hk _ _))
        · exact L.emit _ _ (hskip _ rfl) (L.emit _ _ (hskip _ rfl) (L.halt _ (by simp)))
        · exact L.halt _ (by simp)
  · exact hk _ _
  · exact hk _ _

/-- A liftable property holds of `main` when it holds of the snapshot,
selection and calibration part for every accepted command line. -/
theorem Liftable.main {skip : Event → Prop} {R : Run → Prop} (L : Liftable skip R)
    (hskip : ∀ e, isOuterEvent e = true → skip e)
    (env : Env) (argv0 : String) (rest : List String)
    (hbase : ∀ st t n,
      parseCommandlineArguments env.dirOfPrefixExists (argv0 :: rest) = .ret st →
      R (mainSnp env st.input_options t n (mainEnd env))) :
    R (main env argv0 rest) := by
  unfold SnapshotSnpcaller.main
  split_ifs
  · exact L.emit _ _ (hskip _ rfl) (L.halt _ (by simp))
  · exact L.call _ _ _ (hskip _ rfl) (L.call _ _ _ (hskip _ rfl)
      (L.emit _ _ (hskip _ rfl) (L.halt _ (by simp))))
  · refine L.call _ _ _ (hskip _ rfl) (L.call _ _ _ (hskip _ rfl)
      (L.call _ _ _ (hskip _ rfl) ?_))
    split
    · rename_i code err hp
      have hcode : code = 1 := by
        rcases parse_exit_code _ _ _ _ hp with h
        exact h
      subst hcode
      exact L.errs (fun s => hskip _ rfl) _ (L.halt _ (by simp)) _
    · exact L.halt _ (by simp)
    · exact L.halt _ (by simp)
    · rename_i st hst
      refine L.call _ _ _ (hskip _ rfl) (L.call _ _ _ (hskip _ rfl) ?_)
      refine L.mainExome hskip _ _ _ (fun t n => ?_)
      exact L.call _ _ _ (hskip _ rfl) (L.call _ _ _ (hskip _ rfl) (hbase st t n hst))

theorem call_of_returns (env : Env) (e : Event) (k : Run) (h : env.returns e = true) :
    call env e k = emit e k := by
  simp [call, h]

theorem trace_call (env : Env) (e : Event) (k : Run) :
    (call env e k).trace = e :: (if env.returns e = true then k.trace else []) := by
  unfold call
  split_ifs <;> rfl

theorem status_call (env : Env) (e : Event) (k : Run) :
    (call env e k).status = if env.returns e = true then k.status else .calleeEnded := by
  unfold call
  split_ifs <;> rfl

theorem status_emit (e : Event) (k : Run) : (emit e k).status = k.status := rfl

theorem trace_emit (e : Event) (k : Run) : (emit e k).trace = e :: k.trace := rfl

theorem call_success (env : Env) (e : Event) (k : Run)
    (h : (call env e k).status = .returned 0) :
    env.returns e = true ∧ k.status = .returned 0 ∧ (call env e k).trace = e :: k.trace := by
  by_cases hr : env.returns e = true
  · rw [call_of_returns env e k hr] at h ⊢
    exact ⟨hr, h, rfl⟩
  · simp [call, hr] at h

/-- C5: once the handler is registered and the buffer for the name is there,
the first call of `main` outside the file is `ParseIniFile` on `argv[0]`
followed by `.ini`, and it is the only name `ParseIniFile` is ever given; when
that call returns a non-zero status the whole run is the buffer allocation,
that call and one line on the error stream, and `main` returns 1, whatever
the other arguments are: no parsing of the command line, no index load, no
snapshot, intermediate or report file. -/
theorem main_config_error (env : Env) (argv0 : String) (rest : List String)
    (hsig : env.sigaction ≠ -1)
    (hx : env.returns (.xmalloc "iniFileName" (iniFileNameSize argv0)) = true) :
    (main env argv0 rest).trace.take 2 =
        [.xmalloc "iniFileName" (iniFileNameSize argv0), .ParseIniFile (argv0 ++ ".ini")] ∧
    (∀ n, Event.ParseIniFile n ∈ (main env argv0 rest).trace → n = argv0 ++ ".ini") ∧
    (env.returns (.ParseIniFile (argv0 ++ ".ini")) = true →
      env.ParseIniFile (argv0 ++ ".ini") ≠ 0 →
      main env argv0 rest =
        ⟨[.xmalloc "iniFileName" (iniFileNameSize argv0), .ParseIniFile (argv0 ++ ".ini"),
          .stderr ("Failed to parse configuration file ... " ++ (argv0 ++ ".ini") ++ "\n")],
         .returned 1⟩) := by
  refine ⟨?_, ?_, ?_⟩
  · unfold main
    rw [if_neg hsig, call_of_returns env _ _ hx]
    simp [emit, trace_call, iniFileName]
  · intro n hn
    have hall := allEvents_main (fun e => ∀ n, e = .ParseIniFile n → n = iniFileName argv0)
      env argv0 rest (by simp) (by simp) (by simp) (by simp) (by simp) (by simp) (by simp)
      (by simp) (by simp) (by simp) (by simp) (by simp) (by simp) (by simp) (by simp) (by simp)
      (by simp) (by simp)
    exact hall _ hn n rfl
  · intro hret hne
    unfold main
    rw [if_neg hsig, call_of_returns env _ _ hx]
    simp only [iniFileName]
    rw [call_of_returns env _ _ hret, if_pos hne]
    rfl

theorem main_config_error_witness :
    (envIniFails.sigaction ≠ -1 ∧
      envIniFails.returns (.xmalloc "iniFileName" (iniFileNameSize "snapshotSnpcaller")) = true) ∧
    main envIniFails "snapshotSnpcaller" ["-i", "ref/hg19", "-o", "out/run"] =
      ⟨[.xmalloc "iniFileName" (iniFileNameSize "snapshotSnpcaller"),
        .ParseIniFile ("snapshotSnpcaller" ++ ".ini"),
        .stderr ("Failed to parse configuration file ... " ++ ("snapshotSnpcaller" ++ ".ini") ++
          "\n")],
       .returned 1⟩ :=
  ⟨⟨by decide, rfl⟩,
    (main_config_error envIniFails "snapshotSnpcaller" ["-i", "ref/hg19", "-o", "out/run"]
      (by decide) rfl).2.2 rfl (by decide)⟩

theorem Adjacent.cons {a b : Event} {t : List Event} (e : Event) (h : Adjacent a b t) :
    Adjacent a b (e :: t) := by
  obtain ⟨pre, post, rfl⟩ := h
  exact ⟨e :: pre, post, rfl⟩

theorem precededBy_cons (isB : Event → Prop) (A : Event → Event → Prop) (e : Event)
    (t : List Event) (s1 s2 : Status) (he : ¬ isB e) (h : PrecededBy isB A ⟨t, s1⟩) :
    PrecededBy isB A ⟨e :: t, s2⟩ := by
  intro b hb hB
  simp only [List.mem_cons] at hb
  rcases hb with rfl | hb
  · exact absurd hB he
  · obtain ⟨a, hA, hadj⟩ := h b hb hB
    exact ⟨a, hA, hadj.cons e⟩

theorem precededBy_nil (isB : Event → Prop) (A : Event → Event → Prop) (s : Status) :
    PrecededBy isB A ⟨[], s⟩ := by
  intro b hb
  simp at hb

theorem precededBy_pair (isB : Event → Prop) (A : Event → Event → Prop) (a b : Event)
    (t : List Event) (s1 s2 : Status) (ha : ¬ isB a) (hab : A a b)
    (h : PrecededBy isB A ⟨t, s1⟩) : PrecededBy isB A ⟨a :: b :: t, s2⟩ := by
  intro x hx hB
  simp only [List.mem_cons] at hx
  rcases hx with rfl | rfl | hx
  · exact absurd hB ha
  · exact ⟨a, hab, [], t, rfl⟩
  · obtain ⟨a1, hA, hadj⟩ := h x hx hB
    exact ⟨a1, hA, (hadj.cons _).cons _⟩

theorem precededBy_liftable (isB : Event → Prop) (A : Event → Event → Prop) :
    Liftable (fun e => ¬ isB e) (PrecededBy isB A) where
  halt := fun s _ => precededBy_nil isB A s
  emit := fun e k he hk => precededBy_cons isB A e k.trace k.status k.status he hk
  stop := fun e he => precededBy_cons isB A e [] .calleeEnded .calleeEnded he
    (precededBy_nil isB A _)

theorem precededBy_mainEnd (isB : Event → Prop) (A : Event → Event → Prop) (env : Env)
    (h : ¬ isB .HSPFree) : PrecededBy isB A (mainEnd env) := by
  unfold mainEnd call
  split_ifs
  · exact precededBy_cons isB A _ _ (.returned 0) _ h (precededBy_nil isB A _)
  · exact precededBy_cons isB A _ _ .calleeEnded _ h (precededBy_nil isB A _)

theorem precededBy_call_call (isB : Event → Prop) (A : Event → Event → Prop) (env : Env)
    (a b : Event) (k : Run) (ha : ¬ isB a) (hab : A a b) (h : PrecededBy isB A k) :
    PrecededBy isB A (call env a (call env b k)) := by
  unfold call emit
  split_ifs
  · exact precededBy_pair isB A a b k.trace k.status _ ha hab h
  · exact precededBy_pair isB A a b [] .calleeEnded _ ha hab (precededBy_nil isB A _)
  · exact precededBy_cons isB A a [] .calleeEnded _ ha (precededBy_nil isB A _)

theorem precededBy_call_emit (isB : Event → Prop) (A : Event → Event → Prop) (env : Env)
    (a b : Event) (k : Run) (ha : ¬ isB a) (hab : A a b) (h : PrecededBy isB A k) :
    PrecededBy isB A (call env a (emit b k)) := by
  unfold call emit
  split_ifs
  · exact precededBy_pair isB A a b k.trace k.status _ ha hab h
  · exact precededBy_cons isB A a [] .calleeEnded _ ha (precededBy_nil isB A _)

theorem mainSnp_calibration (env : Env) (input_options : InputOptions)
    (t : Option ExomeRegionTable) (n : Nat) :
    PrecededBy isCalibration (SelectedFor env) (mainSnp env input_options t n (mainEnd env)) := by
  have L := precededBy_liftable isCalibration (SelectedFor env)
  have hend := precededBy_mainEnd isCalibration (SelectedFor env) env (by simp [isCalibration])
  unfold mainSnp
  split_ifs
  · split
    · exact L.halt _ (by simp)
    · refine L.emit _ _ (by simp [isCalibration]) ?_
      split_ifs
      · exact L.halt _ (by simp)
      · exact L.call _ _ _ (by simp [isCalibration]) (L.emit _ _ (by simp [isCalibration])
          (L.emit _ _ (by simp [isCalibration]) (L.emit _ _ (by simp [isCalibration])
          (L.halt _ (by simp)))))
      · exact L.call _ _ _ (by simp [isCalibration]) (L.emit _ _ (by simp [isCalibration])
          (L.emit _ _ (by simp [isCalibration]) (L.emit _ _ (by simp [isCalibration])
          (L.halt _ (by simp)))))
      · refine L.call _ _ _ (by simp [isCalibration]) (L.emit _ _ (by simp [isCalibration])
          (L.emit _ _ (by simp [isCalibration]) (L.emit _ _ (by simp [isCalibration])
          (L.emit _ _ (by simp [isCalibration]) (L.call _ _ _ (by simp [isCalibration]) ?_)))))
        simp only
        refine precededBy_call_call _ _ env _ _ _ (by simp [isCalibration])
          ⟨_, _, _, _, _, _, _, rfl, rfl⟩ ?_
        exact L.emit _ _ (by simp [isCalibration]) (L.emit _ _ (by simp [isCalibration])
          (L.emit _ _ (by simp [isCalibration]) (L.call _ _ _ (by simp [isCalibration])
          (L.call _ _ _ (by simp [isCalibration]) (L.call _ _ _ (by simp [isCalibration])
          (L.call _ _ _ (by simp [isCalibration]) (L.emit _ _ (by simp [isCalibration])
          hend)))))))
  · exact hend

/-- C6: in every run of `main` that reaches calibration, the call of
`calRFpedictProb` comes right after a call of `selectPossibleSNPs` whose count
cell held 0 on entry and whose output file is the file the calibrator reads,
and the count the calibrator is given is the content of that cell after the
selector returned. -/
theorem main_calibrator_count (env : Env) (argv0 : String) (rest : List String)
    (inF outF : String) (n : Nat) (v : Bool)
    (h : Event.calRFpedictProb inF outF n v ∈ (main env argv0 rest).trace) :
    ∃ ie er ne io,
      Adjacent (.selectPossibleSNPs 0 ie er ne io inF) (.calRFpedictProb inF outF n v)
        (main env argv0 rest).trace ∧
      n = env.attriSizeAfter (.selectPossibleSNPs 0 ie er ne io inF) := by
  have hmain : PrecededBy isCalibration (SelectedFor env) (main env argv0 rest) :=
    (precededBy_liftable isCalibration (SelectedFor env)).main
      (fun e he => by cases e <;> simp_all [isOuterEvent, isCalibration])
      env argv0 rest (fun st t n _ => mainSnp_calibration env st.input_options t n)
  obtain ⟨a, ⟨ie, er, ne, io, inF1, outF1, v1, rfl, hb⟩, hadj⟩ := hmain _ h (by simp [isCalibration])
  simp only [Event.calRFpedictProb.injEq] at hb
  obtain ⟨rfl, rfl, rfl, rfl⟩ := hb
  exact ⟨ie, er, ne, io, hadj, rfl⟩

theorem mainSnp_success (env : Env) (input_options : InputOptions)
    (t : Option ExomeRegionTable) (n : Nat) (hflag : env.SNP_STAT_FLAG ≠ 0)
    (h0 : (mainSnp env input_options t n (mainEnd env)).status = .returned 0) :
    ∃ P, input_options.resultPrefix = some P ∧
      (mainSnp env input_options t n (mainEnd env)).trace = snpTrace env input_options t n P ∧
      env.returns (.calRFpedictProb (snp_noRF_filename P) (snp_filename P)
        (env.attriSizeAfter
          (.selectPossibleSNPs 0 input_options.isExome t n input_options (snp_noRF_filename P)))
        input_options.verbose) = true := by
  have hf : env.SNP_STAT_FLAG &&& env.SNP_STAT_FLAG ≠ 0 := by simpa using hflag
  unfold mainSnp at h0 ⊢
  rw [if_pos hf] at h0 ⊢
  cases hrp : input_options.resultPrefix with
  | none => simp [hrp, halt] at h0
  | some P =>
    refine ⟨P, rfl, ?_⟩
    simp only [hrp] at h0 ⊢
    rw [status_emit] at h0
    rw [trace_emit]
    by_cases c1 : (!env.nonNull (.malloc "snapshotFileName" (snapshotFileNameSize P))) = true
    · rw [if_pos c1] at h0; simp [halt] at h0
    rw [if_neg c1] at h0 ⊢
    obtain ⟨-, h0, ht⟩ := call_success _ _ _ h0
    rw [ht]; clear ht
    simp only [status_emit, trace_emit] at h0 ⊢
    by_cases c2 : (!env.nonNull (.malloc "snp_noRF_filename" (snp_noRF_filenameSize P))) = true
    · rw [if_pos c2] at h0; simp [halt] at h0
    rw [if_neg c2] at h0 ⊢
    by_cases c3 : (!env.nonNull (.malloc "snp_filename" (snp_filenameSize P))) = true
    · rw [if_pos c3] at h0; simp [halt] at h0
    rw [if_neg c3] at h0 ⊢
    simp only [status_emit, trace_emit] at h0 ⊢
    obtain ⟨-, h0, ht⟩ := call_success _ _ _ h0
    rw [ht]; clear ht
    obtain ⟨-, h0, ht⟩ := call_success _ _ _ h0
    rw [ht]; clear ht
    obtain ⟨hcal, h0, ht⟩ := call_success _ _ _ h0
    rw [ht]; clear ht
    refine ⟨?_, hcal⟩
    simp only [status_emit, trace_emit] at h0 ⊢
    obtain ⟨-, h0, ht⟩ := call_success _ _ _ h0
    rw [ht]; clear ht
    obtain ⟨-, h0, ht⟩ := call_success _ _ _ h0
    rw [ht]; clear ht
    obtain ⟨-, h0, ht⟩ := call_success _ _ _ h0
    rw [ht]; clear ht
    obtain ⟨-, h0, ht⟩ := call_success _ _ _ h0
    rw [ht]; clear ht
    simp only [status_emit, trace_emit] at h0 ⊢
    unfold mainEnd at h0 ⊢
    obtain ⟨-, h0, ht⟩ := call_success _ _ _ h0
    rw [ht]
    rfl

theorem reachedSnp_liftable (env : Env) (argv0 : String) (rest : List String) :
    Liftable (fun _ => True) (ReachedSnp env argv0 rest) where
  halt := fun s hs h => absurd h hs
  emit := fun e k _ hk h => by
    obtain ⟨st, t, n, pre, hp, ht, hs⟩ := hk h
    exact ⟨st, t, n, e :: pre, hp, by rw [trace_emit, ht]; rfl, hs⟩
  stop := fun e _ h => by simp at h

theorem main_success (env : Env) (argv0 : String) (rest : List String) :
    ReachedSnp env argv0 rest (main env argv0 rest) :=
  (reachedSnp_liftable env argv0 rest).main (fun _ _ => trivial) env argv0 rest
    (fun st t n hp hs => ⟨st, t, n, [], hp, rfl, hs⟩)

theorem append_left_ne (P s t : String) (h : s ≠ t) : P ++ s ≠ P ++ t := by
  intro e
  apply h
  have := congrArg String.data e
  simp only [String.data_append, List.append_cancel_left_eq] at this
  exact String.ext this

/-- C7: in every run of `main` that returns 0, with `SNP_STAT_FLAG` a
non-zero flag, the call of `calRFpedictProb` returned and is followed at once
by `remove` of the output prefix followed by `.tmpresult`; `main` calls
`remove` on no other name, and that name differs from the snapshot name and
from the report name. -/
theorem main_removes_intermediate (env : Env) (argv0 : String) (rest : List String)
    (h0 : (main env argv0 rest).status = .returned 0) (hflag : env.SNP_STAT_FLAG ≠ 0) :
    ∃ st P,
      parseCommandlineArguments env.dirOfPrefixExists (argv0 :: rest) = .ret st ∧
      st.input_options.resultPrefix = some P ∧
      (∃ n v, env.returns (.calRFpedictProb (P ++ ".tmpresult") (P ++ ".txt") n v) = true ∧
        Adjacent (.calRFpedictProb (P ++ ".tmpresult") (P ++ ".txt") n v)
          (.remove (P ++ ".tmpresult")) (main env argv0 rest).trace) ∧
      (∀ f, Event.remove f ∈ (main env argv0 rest).trace → f = P ++ ".tmpresult") ∧
      P ++ ".tmpresult" ≠ P ++ ".snapshot" ∧ P ++ ".tmpresult" ≠ P ++ ".txt" := by
  obtain ⟨st, t, n, pre, hp, ht, hs⟩ := main_success env argv0 rest h0
  obtain ⟨P, hP, hsnp, hret⟩ := mainSnp_success env st.input_options t n hflag hs
  refine ⟨st, P, hp, hP, ⟨_, _, hret, ?_⟩, ?_, append_left_ne P _ _ (by decide),
    append_left_ne P _ _ (by decide)⟩
  · rw [ht, hsnp]
    exact ⟨pre ++ (snpTrace env st.input_options t n P).take 8,
      (snpTrace env st.input_options t n P).drop 10, by
      simp [snpTrace, snp_noRF_filename, snp_filename]⟩
  · intro f hf
    have hall := allEvents_main (fun e => ∀ f, e = .remove f → f = snp_noRF_filename P)
      env argv0 rest (by simp) (by simp) (by simp) (by simp) (by simp) (by simp) (by simp)
      (by simp) (by simp) (by simp) (by simp) (by simp) (by simp) (by simp) (by simp) (by simp)
      (by simp) (by
        intro st1 P1 hp1 hP1
        rw [hp] at hp1
        cases hp1
        rw [hP] at hP1
        cases hP1
        simp)
    exact hall _ hf f rfl

theorem main_removes_intermediate_witness :
    ((main envShortExome "snapshotSnpcaller" ["-i", "ref/hg19", "-o", "out/run"]).status =
        .returned 0 ∧ envShortExome.SNP_STAT_FLAG ≠ 0) ∧
    ∃ st P,
      parseCommandlineArguments envShortExome.dirOfPrefixExists
        ("snapshotSnpcaller" :: ["-i", "ref/hg19", "-o", "out/run"]) = .ret st ∧
      st.input_options.resultPrefix = some P ∧
      (∃ n v,
        envShortExome.returns (.calRFpedictProb (P ++ ".tmpresult") (P ++ ".txt") n v) = true ∧
        Adjacent (.calRFpedictProb (P ++ ".tmpresult") (P ++ ".txt") n v)
          (.remove (P ++ ".tmpresult"))
          (main envShortExome "snapshotSnpcaller" ["-i", "ref/hg19", "-o", "out/run"]).trace) ∧
      (∀ f, Event.remove f ∈
        (main envShortExome "snapshotSnpcaller" ["-i", "ref/hg19", "-o", "out/run"]).trace →
        f = P ++ ".tmpresult") ∧
      P ++ ".tmpresult" ≠ P ++ ".snapshot" ∧ P ++ ".tmpresult" ≠ P ++ ".txt" :=
  ⟨⟨by decide, by decide⟩,
    main_removes_intermediate envShortExome "snapshotSnpcaller"
      ["-i", "ref/hg19", "-o", "out/run"] (by decide) (by decide)⟩

/-- C8: for an output prefix `P` the parser accepted, every snapshot read of
`main` is from `P.snapshot`, every selector call writes `P.tmpresult`, and
every calibrator call reads `P.tmpresult` and writes `P.txt`; a run that
returns 0, with `SNP_STAT_FLAG` a non-zero flag, makes all three calls; and
the three names differ from each other. -/
theorem main_file_names (env : Env) (argv0 : String) (rest : List String) (st : ParseState)
    (P : String)
    (hp : parseCommandlineArguments env.dirOfPrefixExists (argv0 :: rest) = .ret st)
    (hP : st.input_options.resultPrefix = some P) :
    (∀ f, Event.readSnpInfoSnapshot f ∈ (main env argv0 rest).trace → f = P ++ ".snapshot") ∧
    (∀ a ie er ne io f, Event.selectPossibleSNPs a ie er ne io f ∈ (main env argv0 rest).trace →
      f = P ++ ".tmpresult") ∧
    (∀ i o n v, Event.calRFpedictProb i o n v ∈ (main env argv0 rest).trace →
      i = P ++ ".tmpresult" ∧ o = P ++ ".txt") ∧
    ((main env argv0 rest).status = .returned 0 → env.SNP_STAT_FLAG ≠ 0 →
      Event.readSnpInfoSnapshot (P ++ ".snapshot") ∈ (main env argv0 rest).trace ∧
      (∃ ie er ne io, Event.selectPossibleSNPs 0 ie er ne io (P ++ ".tmpresult") ∈
        (main env argv0 rest).trace) ∧
      (∃ n v, Event.calRFpedictProb (P ++ ".tmpresult") (P ++ ".txt") n v ∈
        (main env argv0 rest).trace)) ∧
    (P ++ ".snapshot" ≠ P ++ ".tmpresult" ∧ P ++ ".snapshot" ≠ P ++ ".txt" ∧
      P ++ ".tmpresult" ≠ P ++ ".txt") := by
  have hall : AllEvents (NamesFrom P) (main env argv0 rest) :=
    allEvents_main (NamesFrom P) env argv0 rest (by simp [NamesFrom]) (by simp [NamesFrom])
      (by simp [NamesFrom]) (by simp [NamesFrom]) (by simp [NamesFrom]) (by simp [NamesFrom])
      (by simp [NamesFrom]) (by simp [NamesFrom]) (by simp [NamesFrom]) (by simp [NamesFrom])
      (by simp [NamesFrom]) (by simp [NamesFrom]) (by simp [NamesFrom]) (by simp [NamesFrom])
      (by simp [NamesFrom]) (by simp [NamesFrom]) (by simp [NamesFrom]) (by
        intro st1 P1 hp1 hP1
        rw [hp] at hp1
        cases hp1
        rw [hP] at hP1
        cases hP1
        simp [NamesFrom, snapshotFileName, snp_noRF_filename, snp_filename])
  refine ⟨fun f hf => hall _ hf, fun a ie er ne io f hf => hall _ hf,
    fun i o n v hf => hall _ hf, ?_, append_left_ne P _ _ (by decide),
    append_left_ne P _ _ (by decide), append_left_ne P _ _ (by decide)⟩
  intro h0 hflag
  obtain ⟨st1, t, n, pre, hp1, ht, hs⟩ := main_success env argv0 rest h0
  rw [hp] at hp1
  cases hp1
  obtain ⟨P1, hP1, hsnp, -⟩ := mainSnp_success env st.input_options t n hflag hs
  rw [hP] at hP1
  cases hP1
  rw [ht, hsnp]
  refine ⟨?_, ⟨st.input_options.isExome, t, n, st.input_options, ?_⟩,
    ⟨env.attriSizeAfter (.selectPossibleSNPs 0 st.input_options.isExome t n st.input_options
      (snp_noRF_filename P)), st.input_options.verbose, ?_⟩⟩
  · simp [snpTrace, snapshotFileName]
  · simp [snpTrace, snp_noRF_filename]
  · simp [snpTrace, snp_noRF_filename, snp_filename]

theorem main_file_names_witness :
    (∀ f, Event.readSnpInfoSnapshot f ∈
        (main envShortExome "snapshotSnpcaller" ["-v", "-o", "out/run", "-i", "ref/hg19"]).trace →
      f = "out/run" ++ ".snapshot") ∧
    Event.readSnpInfoSnapshot ("out/run" ++ ".snapshot") ∈
      (main envShortExome "snapshotSnpcaller" ["-v", "-o", "out/run", "-i", "ref/hg19"]).trace :=
  have h := main_file_names envShortExome "snapshotSnpcaller"
    ["-v", "-o", "out/run", "-i", "ref/hg19"] ⟨some "ref/hg19", ⟨some "out/run", false, none, true⟩⟩
    "out/run" (by decide) rfl
  ⟨h.1, (h.2.2.2.1 (by decide) (by decide)).1⟩

theorem main_calibrator_count_witness :
    Event.calRFpedictProb "out/run.tmpresult" "out/run.txt" 7 false ∈
      (main envShortExome "snapshotSnpcaller" ["-i", "ref/hg19", "-o", "out/run"]).trace ∧
    ∃ ie er ne io,
      Adjacent (.selectPossibleSNPs 0 ie er ne io "out/run.tmpresult")
        (.calRFpedictProb "out/run.tmpresult" "out/run.txt" 7 false)
        (main envShortExome "snapshotSnpcaller" ["-i", "ref/hg19", "-o", "out/run"]).trace ∧
      7 = envShortExome.attriSizeAfter (.selectPossibleSNPs 0 ie er ne io "out/run.tmpresult") :=
  ⟨by decide,
    main_calibrator_count envShortExome "snapshotSnpcaller" ["-i", "ref/hg19", "-o", "out/run"]
      "out/run.tmpresult" "out/run.txt" 7 false (by decide)⟩

/-! ## The exome-region load -/

/-- The exome-region load for a file that opens, whatever its length, when
`malloc` gives a table that is not null: the five library calls, then the rest
of `main` with the count and the table. -/
theorem mainExome_short_file (env : Env) (input_options : InputOptions)
    (k : Option ExomeRegionTable → Nat → Run) (name : String) (bytes : List Nat)
    (hflag : env.SNP_STAT_FLAG ≠ 0) (hex : input_options.isExome = true)
    (hname : input_options.exomeRegionFileName = some name)
    (hopen : env.fopen name = some bytes)
    (hmem : env.nonNull
      (.malloc "exomeRegion" (sizeT (leU32 (bytes.take 4) * env.sizeofExomeRegion))) = true) :
    mainExome env input_options k =
      emit (.fopen name)
        (emit (.fread "numExomeRegion" 4 1)
          (emit (.malloc "exomeRegion" (sizeT (leU32 (bytes.take 4) * env.sizeofExomeRegion)))
            (emit (.fread "exomeRegion" env.sizeofExomeRegion (leU32 (bytes.take 4)))
              (emit .fclose
                (k (some ⟨leU32 (bytes.take 4),
                    (bytes.drop 4).take
                      (sizeT (leU32 (bytes.take 4) * env.sizeofExomeRegion))⟩)
                  (leU32 (bytes.take 4))))))) := by
  have hf : env.SNP_STAT_FLAG &&& env.SNP_STAT_FLAG ≠ 0 := by simpa using hflag
  unfold mainExome
  rw [if_pos hf, if_pos hex]
  simp only [hname, hopen, hmem, if_true]

/-- C4, as the code has it: for an exome region file that opens, whatever its
length, a short read does not end the run of `main`, which looks at neither
`fread` result. When `malloc` gives a table that is not null and every step of
`main` before the selector goes through (the handler is registered, the
configuration is parsed with status 0, the command line is accepted with `-e`
and output prefix `P`, the file-name buffers are allocated, and the calls up
to `prefill_likelihood_cache_with_p_err` return), the run of `main` begins
with the twenty events below: it reads the snapshot `P.snapshot` and calls
`selectPossibleSNPs` with `numExomeRegion` the value of the first four bytes
the file has and a table that holds only the bytes the file had after them,
as many as the table has room for and no more than the file has. -/
theorem main_short_exome_file (env : Env) (argv0 : String) (rest : List String)
    (st : ParseState) (name : String) (bytes : List Nat) (P : String)
    (hsig : env.sigaction ≠ -1)
    (hx : env.returns (.xmalloc "iniFileName" (iniFileNameSize argv0)) = true)
    (hiniR : env.returns (.ParseIniFile (iniFileName argv0)) = true)
    (hini : env.ParseIniFile (iniFileName argv0) = 0)
    (hxf : env.returns (.xfree "iniFileName") = true)
    (hp : parseCommandlineArguments env.dirOfPrefixExists (argv0 :: rest) = .ret st)
    (hidx : env.returns (.processIndexFileName st.indexPrefix) = true)
    (hload : env.returns .loadIndex = true)
    (hflag : env.SNP_STAT_FLAG ≠ 0) (hex : st.input_options.isExome = true)
    (hname : st.input_options.exomeRegionFileName = some name)
    (hopen : env.fopen name = some bytes)
    (hmem : env.nonNull
      (.malloc "exomeRegion" (sizeT (leU32 (bytes.take 4) * env.sizeofExomeRegion))) = true)
    (hb1 : env.returns (.BWTFree "bwt") = true) (hb2 : env.returns (.BWTFree "revBwt") = true)
    (hP : st.input_options.resultPrefix = some P)
    (hm1 : env.nonNull (.malloc "snapshotFileName" (snapshotFileNameSize P)) = true)
    (hsnap : env.returns (.readSnpInfoSnapshot (snapshotFileName P)) = true)
    (hm2 : env.nonNull (.malloc "snp_noRF_filename" (snp_noRF_filenameSize P)) = true)
    (hm3 : env.nonNull (.malloc "snp_filename" (snp_filenameSize P)) = true)
    (hpre : env.returns .prefill_likelihood_cache_with_p_err = true) :
    (∃ tail, (main env argv0 rest).trace =
      [ .xmalloc "iniFileName" (iniFileNameSize argv0),
        .ParseIniFile (argv0 ++ ".ini"),
        .xfree "iniFileName",
        .processIndexFileName st.indexPrefix,
        .loadIndex,
        .fopen name,
        .fread "numExomeRegion" 4 1,
        .malloc "exomeRegion" (sizeT (leU32 (bytes.take 4) * env.sizeofExomeRegion)),
        .fread "exomeRegion" env.sizeofExomeRegion (leU32 (bytes.take 4)),
        .fclose,
        .BWTFree "bwt",
        .BWTFree "revBwt",
        .malloc "snapshotFileName" (snapshotFileNameSize P),
        .readSnpInfoSnapshot (P ++ ".snapshot"),
        .free "snapshotFileName",
        .malloc "snp_noRF_filename" (snp_noRF_filenameSize P),
        .malloc "snp_filename" (snp_filenameSize P),
        .malloc "likelihood_cache" env.sizeofLikelihoodCache,
        .prefill_likelihood_cache_with_p_err,
        .selectPossibleSNPs 0 true
          (some ⟨leU32 (bytes.take 4),
            (bytes.drop 4).take (sizeT (leU32 (bytes.take 4) * env.sizeofExomeRegion))⟩)
          (leU32 (bytes.take 4)) st.input_options (P ++ ".tmpresult") ] ++ tail) ∧
    ((bytes.drop 4).take (sizeT (leU32 (bytes.take 4) * env.sizeofExomeRegion))).length =
      min (sizeT (leU32 (bytes.take 4) * env.sizeofExomeRegion)) (bytes.length - 4) := by
  have hf : env.SNP_STAT_FLAG &&& env.SNP_STAT_FLAG ≠ 0 := by simpa using hflag
  refine ⟨?_, ?_⟩
  · unfold main
    rw [if_neg hsig, call_of_returns env _ _ hx, call_of_returns env _ _ hiniR,
      if_neg (by simp [hini]), call_of_returns env _ _ hxf]
    simp only [hp]
    rw [call_of_returns env _ _ hidx, call_of_returns env _ _ hload,
      mainExome_short_file env st.input_options _ name bytes hflag hex hname hopen hmem]
    rw [call_of_returns env _ _ hb1, call_of_returns env _ _ hb2]
    unfold mainSnp
    rw [if_pos hf]
    simp only [hP, hm1, hm2, hm3, Bool.not_true, Bool.false_eq_true, if_false]
    rw [call_of_returns env _ _ hsnap, call_of_returns env _ _ hpre]
    simp only [trace_emit, trace_call, hex, iniFileName, snapshotFileName, snp_noRF_filename]
    exact ⟨_, rfl⟩
  · simp only [List.length_take, List.length_drop]

theorem main_short_exome_file_witness :
    Event.selectPossibleSNPs 0 true (some ⟨2, [232, 3, 0, 0, 208, 7, 0, 0]⟩) 2
        ⟨some "out/run", true, some "exome.idx", true⟩ "out/run.tmpresult" ∈
      (main envShortExome "snapshotSnpcaller"
        ["-v", "-e", "exome.idx", "-o", "out/run", "-i", "ref/hg19"]).trace ∧
    ([232, 3, 0, 0, 208, 7, 0, 0] : List Nat).length = min 16 (12 - 4) := by
  obtain ⟨⟨tail, h⟩, hlen⟩ := main_short_exome_file envShortExome "snapshotSnpcaller"
    ["-v", "-e", "exome.idx", "-o", "out/run", "-i", "ref/hg19"]
    ⟨some "ref/hg19", ⟨some "out/run", true, some "exome.idx", true⟩⟩ "exome.idx"
    [2, 0, 0, 0, 232, 3, 0, 0, 208, 7, 0, 0] "out/run"
    (by decide) rfl rfl rfl rfl (by decide) rfl rfl (by decide) rfl rfl rfl rfl rfl rfl rfl
    rfl rfl rfl rfl rfl
  exact ⟨by rw [h]; exact List.mem_append_left _ (by decide), hlen⟩

/-- C4, against the claim: the exome file holds the count 2 and one 8-byte
record, 12 bytes where its layout asks for 20; the run does not fail: it reads
the snapshot, calls the selector with a table of 2 records of which the second
was never written, and returns 0. -/
theorem main_short_exome_file_runs :
    envShortExome.fopen "exome.idx" = some [2, 0, 0, 0, 232, 3, 0, 0, 208, 7, 0, 0] ∧
    [2, 0, 0, 0, 232, 3, 0, 0, 208, 7, 0, 0].length < 4 + 2 * envShortExome.sizeofExomeRegion ∧
    (main envShortExome "snapshotSnpcaller"
      ["-i", "ref/hg19", "-o", "out/run", "-e", "exome.idx"]).status = .returned 0 ∧
    Event.readSnpInfoSnapshot "out/run.snapshot" ∈
      (main envShortExome "snapshotSnpcaller"
        ["-i", "ref/hg19", "-o", "out/run", "-e", "exome.idx"]).trace ∧
    Event.selectPossibleSNPs 0 true (some ⟨2, [232, 3, 0, 0, 208, 7, 0, 0]⟩) 2
        ⟨some "out/run", true, some "exome.idx", false⟩ "out/run.tmpresult" ∈
      (main envShortExome "snapshotSnpcaller"
        ["-i", "ref/hg19", "-o", "out/run", "-e", "exome.idx"]).trace := by
  decide

/-! ## Where the code departs from the specification -/

/-- C9, at the failing input: with `-e` as the last argument the parser reads
the null pointer at `args[argn]` as the exome file name, sets `isExome`, and
returns; `main` then hands the null name to `fopen`. The same slip after `-i`
is caught by the check for a missing index. -/
theorem parse_trailing_exome_flag :
    parseCommandlineArguments (fun _ => true)
        ["snapshotSnpcaller", "-i", "ref/hg19", "-o", "out/run", "-e"] =
      .ret ⟨some "ref/hg19", ⟨some "out/run", true, none, false⟩⟩ ∧
    (main envShortExome "snapshotSnpcaller" ["-i", "ref/hg19", "-o", "out/run", "-e"]).status =
      .fault "fopen(NULL)" ∧
    parseCommandlineArguments (fun _ => true) ["snapshotSnpcaller", "-o", "out/run", "-i"] =
      .exit 1 ("Usage Error: Missing index.\n" :: printCommandUsage (some "snapshotSnpcaller")) := by
  decide

/-- C2, against the claim: with a well-formed command line and no directory
for the index prefix the parser exits with code 1 after one error line, and
the usage message is not written. -/
theorem parse_missing_dir_no_usage :
    parseCommandlineArguments (fun _ => false)
        ["snapshotSnpcaller", "-i", "ref/hg19", "-o", "out/run"] =
      .exit 1 ["Error: The directory of Reference Index doesn't exists.\n"] ∧
    ¬ (printCommandUsage (some "snapshotSnpcaller") <:+:
      ["Error: The directory of Reference Index doesn't exists.\n"]) := by
  refine ⟨by decide, fun h => ?_⟩
  have := h.length_le
  simp [printCommandUsage] at this

/-- C2, as the code has it: for an argument vector the parser accepts when
both directories exist, with index prefix `X` and output prefix `Y`: when
`dirOfPrefixExists` is false for `X` or for `Y` the parser ends the process
with exit code 1 after writing one line to the error stream, the one about
the index directory when `X` fails and else the one about the output
directory; the usage message is not written. -/
theorem parse_missing_dir (dir : String → Bool) (args : List String) (st : ParseState)
    (X Y : String)
    (hacc : parseCommandlineArguments (fun _ => true) args = .ret st)
    (hX : st.indexPrefix = some X) (hY : st.input_options.resultPrefix = some Y)
    (hdir : dir X = false ∨ dir Y = false) :
    parseCommandlineArguments dir args =
      .exit 1 [if dir X = false then "Error: The directory of Reference Index doesn't exists.\n"
        else "Error: The directory of Output Prefix doesn't exists.\n"] ∧
    ¬ (printCommandUsage args[0]? <:+:
      [if dir X = false then "Error: The directory of Reference Index doesn't exists.\n"
        else "Error: The directory of Output Prefix doesn't exists.\n"]) := by
  refine ⟨?_, fun h => ?_⟩
  · by_cases hlen : args.length ≤ 1
    · simp [parseCommandlineArguments, hlen] at hacc
    · rw [parse_eq_scan _ args (by omega)] at hacc ⊢
      rcases scanFlags_total args[0]? args.tail initState with ⟨e, he, _⟩ | ⟨st1, hd⟩
      · rw [he] at hacc
        simp at hacc
      · rw [hd] at hacc ⊢
        simp only at hacc ⊢
        cases hip : st1.indexPrefix with
        | none => simp [hip] at hacc
        | some X1 =>
          cases hrp : st1.input_options.resultPrefix with
          | none => simp [hip, hrp] at hacc
          | some Y1 =>
            simp only [hip, hrp, Bool.not_true, Bool.false_eq_true, if_false,
              ParseOutcome.ret.injEq] at hacc
            subst hacc
            rw [hX] at hip
            rw [hY] at hrp
            cases hip
            cases hrp
            simp only
            rcases hdir with h | h
            · simp [h]
            · cases hx : dir X <;> simp [hx, h]
  · have := h.length_le
    simp [printCommandUsage] at this

theorem parse_missing_dir_witness :
    parseCommandlineArguments (fun s => s == "ref/hg19")
        ["snapshotSnpcaller", "-i", "ref/hg19", "-o", "out/run"] =
      .exit 1 [if (fun s => s == "ref/hg19") "ref/hg19" = false
        then "Error: The directory of Reference Index doesn't exists.\n"
        else "Error: The directory of Output Prefix doesn't exists.\n"] :=
  (parse_missing_dir (fun s => s == "ref/hg19")
    ["snapshotSnpcaller", "-i", "ref/hg19", "-o", "out/run"]
    ⟨some "ref/hg19", ⟨some "out/run", false, none, false⟩⟩ "ref/hg19" "out/run"
    (by decide) rfl rfl (Or.inr (by decide))).1

/-! ## File-name buffers -/

theorem strlen_append (a b : String) : strlen (a ++ b) = strlen a + strlen b := by
  obtain ⟨a⟩ := a
  obtain ⟨b⟩ := b
  simp [strlen, String.utf8ByteSize, String.append, String.utf8Len_append]

/-- C10: for a program name and an output prefix whose lengths leave room in
`size_t`, each file-name buffer of `main` holds the string written into it
and its terminating zero byte: `strlen(argv[0]) + 5` for the `.ini` name,
`strlen(P) + 10` for the `.snapshot` name, `strlen(P) + 12` for the
`.tmpresult` name and `strlen(P) + 10` for the `.txt` name. -/
theorem file_name_buffers (argv0 P : String)
    (h0 : strlen argv0 + 5 < 2 ^ 64) (hP : strlen P + 12 < 2 ^ 64) :
    strlen (iniFileName argv0) + 1 ≤ iniFileNameSize argv0 ∧
    strlen (snapshotFileName P) + 1 ≤ snapshotFileNameSize P ∧
    strlen (snp_noRF_filename P) + 1 ≤ snp_noRF_filenameSize P ∧
    strlen (snp_filename P) + 1 ≤ snp_filenameSize P := by
  have e1 : strlen ".ini" = 4 := by decide
  have e2 : strlen ".snapshot" = 9 := by decide
  have e3 : strlen ".tmpresult" = 10 := by decide
  have e4 : strlen ".txt" = 4 := by decide
  simp only [iniFileName, iniFileNameSize, snapshotFileName, snapshotFileNameSize,
    snp_noRF_filename, snp_noRF_filenameSize, snp_filename, snp_filenameSize, sizeT,
    strlen_append, e1, e2, e3, e4]
  rw [Nat.mod_eq_of_lt h0, Nat.mod_eq_of_lt hP, Nat.mod_eq_of_lt (by omega)]
  omega

theorem file_name_buffers_witness :
    (strlen "snapshotSnpcaller" + 5 < 2 ^ 64 ∧ strlen "out/run" + 12 < 2 ^ 64) ∧
    strlen (iniFileName "snapshotSnpcaller") + 1 ≤ iniFileNameSize "snapshotSnpcaller" ∧
    strlen (snapshotFileName "out/run") + 1 ≤ snapshotFileNameSize "out/run" ∧
    strlen (snp_noRF_filename "out/run") + 1 ≤ snp_noRF_filenameSize "out/run" ∧
    strlen (snp_filename "out/run") + 1 ≤ snp_filenameSize "out/run" :=
  ⟨⟨by decide, by decide⟩,
    file_name_buffers "snapshotSnpcaller" "out/run" (by decide) (by decide)⟩

end SnapshotSnpcaller
